import Mathlib

/-
Verification of the simulated betting engine of TronHashOddandEvenSize-4.0.

The definitions below are a shallow embedding of the engine source:
  * src/unnamed/part_000, the current ("v4") generation: the
    `SimulatedBetting` component whose state lives in lines 1765-2540
    (helpers `getNextTargetHeight`, `getBeadRowBlocks`, `runAIAnalysis` at
    lines 1340-1454), and
  * src/components/SimulatedBetting.tsx, the older ("v2") generation,
    embedded only where a claim refers to it (`placeBetV2`).

Modelling conventions:
  * JavaScript numbers are modelled as `ℚ` for money/odds/confidence and as
    `ℤ` for block heights and rule parameters (all integral in the source).
  * `Math.floor` is `jsFloor` (floor division of numerator by denominator),
    `Math.round` is `jsRound` (floor of x + 1/2, JS rounds half up).
  * JavaScript `%` on integers is truncating remainder, `Int.tmod`.
  * `Math.floor(a / b)` on integers is flooring division, `Int.fdiv`.
  * `x || d` on numbers (JS falsy-0 fallback) is `jsOrQ x d`.
  * Fields that the engine logic never reads (display labels `ruleName`,
    `taskName`, `strategyLabel`, `resultVal`, `desc`, the wager `id` and
    `timestamp`, a rule's `label`/`trendRows`/`dragonThreshold`, a block's
    `hash`/`resultValue`/`timestamp`, a task's `createTime`) are omitted.
  * `Math.random()` is modelled by a parameter `rand` ranging over [0, 1).
  * The React `useEffect` engine body (one settlement + placement pass per
    new-data tick) is `runCycle`; its `setX` commits are modelled by the
    returned `EngineState` (the source guards the commits with
    `betsChanged`/`tasksChanged`, which only skips writing back unchanged
    values, so an unconditional functional update is equivalent).
  * Each state-changing function additionally returns a list of `Ev` ghost
    events (one `Ev.placed` per stake debit, one `Ev.settled` per payout
    credit, in program order); the events influence no computed value and
    exist only to state the bankroll-replay property.
-/

attribute [local semireducible] Rat.add Rat.sub Rat.mul Rat.inv Rat.ofScientific

set_option maxRecDepth 100000

namespace TronSim

/-- JS `Math.floor` on a rational (floor division of numerator by denominator). -/
def jsFloor (x : ℚ) : ℚ := ((x.num / (x.den : ℤ) : ℤ) : ℚ)

/-- JS `Math.round` (round half toward +∞, i.e. `floor (x + 0.5)`). -/
def jsRound (x : ℚ) : ℚ := jsFloor (x + 1/2)

/-- JS `x || d` on a number: `d` when `x` is falsy (zero), else `x`. -/
def jsOrQ (x d : ℚ) : ℚ := if x = 0 then d else x

/-- JS `x || d` on an integer. -/
def jsOrZ (x d : ℤ) : ℤ := if x = 0 then d else x

/-- `type BlockType = 'ODD' | 'EVEN'` (src/components/SimulatedBetting.tsx:1826). -/
inductive BlockType where
  | ODD
  | EVEN
deriving DecidableEq

/-- `type SizeType = 'BIG' | 'SMALL'` (src/components/SimulatedBetting.tsx:1827). -/
inductive SizeType where
  | BIG
  | SMALL
deriving DecidableEq

/-- `type BetType = 'PARITY' | 'SIZE'` (part_000:1240). -/
inductive BetType where
  | PARITY
  | SIZE
deriving DecidableEq

/-- `type BetTarget = 'ODD' | 'EVEN' | 'BIG' | 'SMALL'` (part_000:1241). -/
inductive BetTarget where
  | ODD
  | EVEN
  | BIG
  | SMALL
deriving DecidableEq

/-- Wager status union `'PENDING' | 'WIN' | 'LOSS'` (part_000:1257). -/
inductive BetStatus where
  | PENDING
  | WIN
  | LOSS
deriving DecidableEq

/-- `type StrategyType` (part_000:1242); `'1326'` is rendered `S1326`. -/
inductive StrategyType where
  | MANUAL
  | MARTINGALE
  | DALEMBERT
  | FLAT
  | FIBONACCI
  | PAROLI
  | S1326
  | CUSTOM
  | AI_KELLY
deriving DecidableEq

/-- `type AutoTargetMode` (part_000:1243). -/
inductive AutoTargetMode where
  | FIXED_ODD
  | FIXED_EVEN
  | FIXED_BIG
  | FIXED_SMALL
  | FOLLOW_LAST
  | REVERSE_LAST
  | GLOBAL_TREND_DRAGON
  | GLOBAL_BEAD_DRAGON
  | AI_PREDICTION
  | GLOBAL_AI_FULL_SCAN
deriving DecidableEq

/-- Manual-vs-auto placement source union `'MANUAL' | 'AUTO'` (part_000:1918). -/
inductive BetSource where
  | MANUAL
  | AUTO
deriving DecidableEq

/-- `interface BlockData` (src/components/SimulatedBetting.tsx:1829), engine-relevant fields. -/
structure BlockData where
  height : ℤ
  type : BlockType
  sizeType : SizeType
deriving DecidableEq

/-- `interface IntervalRule` (src/components/SimulatedBetting.tsx:1838), engine-relevant fields. -/
structure IntervalRule where
  id : String
  value : ℤ
  startBlock : ℤ
  beadRows : ℤ
deriving DecidableEq

/-- `interface BetRecord` (part_000:1245), engine-relevant fields. -/
structure BetRecord where
  taskId : Option String
  ruleId : String
  targetHeight : ℤ
  betType : BetType
  prediction : BetTarget
  amount : ℚ
  odds : ℚ
  status : BetStatus
  payout : ℚ
  balanceAfter : ℚ
deriving DecidableEq

/-- `interface SimConfig` (part_000:1264). -/
structure SimConfig where
  initialBalance : ℚ
  odds : ℚ
  stopLoss : ℚ
  takeProfit : ℚ
  baseBet : ℚ
deriving DecidableEq

/-- `interface StrategyConfig` (part_000:1272).  `targetType` is declared
required in v4 but read through `|| 'PARITY'` (part_000:2460) because
persisted v3 tasks may lack it, hence `Option`. -/
structure StrategyConfig where
  type : StrategyType
  autoTarget : AutoTargetMode
  targetType : Option BetType
  multiplier : ℚ
  maxCycle : ℤ
  step : ℚ
  minStreak : ℕ
  customSequence : Option (List ℚ)
  kellyFraction : Option ℚ
deriving DecidableEq

/-- `interface StrategyState` (part_000:1284).  `sequenceIndex` is a list
index; JS `Math.max(0, i-2)` is Nat truncated subtraction. -/
structure StrategyState where
  consecutiveLosses : ℤ
  currentBetAmount : ℚ
  sequenceIndex : ℕ
deriving DecidableEq

/-- Task statistics record (part_000:1300). -/
structure TaskStats where
  wins : ℕ
  losses : ℕ
  profit : ℚ
  maxProfit : ℚ
  maxLoss : ℚ
  totalBetAmount : ℚ
  peakProfit : ℚ
  maxDrawdown : ℚ
deriving DecidableEq

/-- `interface AutoTask` (part_000:1291), engine-relevant fields. -/
structure AutoTask where
  id : String
  name : String
  ruleId : String
  config : StrategyConfig
  baseBet : ℚ
  state : StrategyState
  isActive : Bool
  stats : TaskStats
deriving DecidableEq

/-- `interface GlobalMetrics` (part_000:1312). -/
structure GlobalMetrics where
  peakBalance : ℚ
  maxDrawdown : ℚ
deriving DecidableEq

/-- The engine state committed by the v4 component: `balance`, `bets`
(newest first), `tasks`, `config`, `globalMetrics` (part_000:1768-1831). -/
structure EngineState where
  balance : ℚ
  bets : List BetRecord
  tasks : List AutoTask
  config : SimConfig
  globalMetrics : GlobalMetrics
deriving DecidableEq

/-- `const FIB_SEQ = [1, 1, 2, 3, 5, 8, ...]` (part_000:1337). -/
def FIB_SEQ : List ℚ := [1, 1, 2, 3, 5, 8, 13, 21, 34, 55, 89, 144, 233, 377, 610]

/-- `const SEQ_1326 = [1, 3, 2, 6]` (part_000:1338). -/
def SEQ_1326 : List ℚ := [1, 3, 2, 6]

/-- `checkRuleAlignment` (part_000:1893-1897). -/
def checkRuleAlignment (height : ℤ) (rule : IntervalRule) : Bool :=
  if rule.value ≤ 1 then true
  else if rule.startBlock > 0 then
    decide (height ≥ rule.startBlock) && decide ((height - rule.startBlock).tmod rule.value = 0)
  else decide (height.tmod rule.value = 0)

/-- `getNextTargetHeight` (part_000:1340-1347).  `startBlock || 0` is the
identity on an integer already defaulted to 0. -/
def getNextTargetHeight (currentHeight step startBlock : ℤ) : ℤ :=
  let offset := startBlock
  if step ≤ 1 then currentHeight + 1
  else
    let diff := currentHeight - offset
    let nextMultiplier := diff.fdiv step + 1
    let nextHeight := offset + nextMultiplier * step
    if nextHeight > currentHeight then nextHeight else nextHeight + step

/-- `allBlocks[0].height`; the engine only runs on a nonempty block list
(part_000:2034 returns early otherwise), so the 0 default is never read. -/
def headHeight : List BlockData → ℤ
  | [] => 0
  | b :: _ => b.height

/-- The value of a block on one betting axis, as compared against a wager's
`prediction` (part_000:2057-2062: `targetBlock.type === bet.prediction`,
`targetBlock.sizeType === bet.prediction`). -/
def blockValue (b : BlockData) (ty : BetType) : BetTarget :=
  match ty with
  | BetType.PARITY => match b.type with
    | BlockType.ODD => BetTarget.ODD
    | BlockType.EVEN => BetTarget.EVEN
  | BetType.SIZE => match b.sizeType with
    | SizeType.BIG => BetTarget.BIG
    | SizeType.SMALL => BetTarget.SMALL

/-- `calculateStreak` (part_000:1899-1909): value of the most recent block
and the number of leading blocks sharing it (the loop breaks at the first
mismatch, i.e. a `takeWhile` length). -/
def calculateStreak (blocks : List BlockData) (ty : BetType) : Option BetTarget × ℕ :=
  match blocks with
  | [] => (none, 0)
  | b0 :: _ =>
    let firstVal := blockValue b0 ty
    (some firstVal, (blocks.takeWhile fun b => decide (blockValue b ty = firstVal)).length)

/-- Stable insertion of a block into a descending-by-height list. -/
def insertDescByHeight (b : BlockData) : List BlockData → List BlockData
  | [] => [b]
  | x :: xs => if x.height ≥ b.height then x :: insertDescByHeight b xs else b :: x :: xs

/-- JS stable `.sort((a, b) => b.height - a.height)` (part_000:1366),
modelled as a stable insertion sort. -/
def sortDescByHeight (l : List BlockData) : List BlockData :=
  l.foldr insertDescByHeight []

/-- `getBeadRowBlocks` (part_000:1350-1367). -/
def getBeadRowBlocks (blocks : List BlockData) (rule : IntervalRule) (rowIdx : ℤ) : List BlockData :=
  let epoch := rule.startBlock
  let interval := rule.value
  let rows := jsOrZ rule.beadRows 6
  sortDescByHeight (blocks.filter fun b =>
    if rule.value > 1 &&
        ((rule.startBlock > 0 && decide (b.height < rule.startBlock)) ||
         (rule.startBlock > 0 && decide ((b.height - rule.startBlock).tmod rule.value ≠ 0)) ||
         (rule.startBlock = 0 && decide (b.height.tmod rule.value ≠ 0))) then
      false
    else
      decide (((b.height - epoch).fdiv interval).tmod rows = rowIdx))

/-- Result record of `runAIAnalysis` (part_000:1453). -/
structure AIAnalysis where
  shouldPredict : Bool
  nextP : Option BetTarget
  confP : ℚ
  nextS : Option BetTarget
  confS : ℚ
deriving DecidableEq

/-- `Math.round(Math.random() * 20 + 10)` (part_000:1450), the "entropy"
damper, as a function of the `Math.random()` draw. -/
def entropyDamper (rand : ℚ) : ℚ := jsRound (rand * 20 + 10)

/-- The deterministic part of `runAIAnalysis` (part_000:1370-1448):
everything up to the entropy damper, with `shouldPredict` holding the
signal condition `confP >= 92 || confS >= 92` before the entropy test.
The nested helpers `checkPeriodicity`/`checkDensity` return
`Option (value × confidence)` in place of the source's `{match, val, conf}`
record (absent value encoded as `none` instead of `{match: false, conf: 0}`). -/
def runAIAnalysisSignal (blocks : List BlockData) (rule : IntervalRule) : AIAnalysis :=
  let checkAlignment : ℤ → Bool := fun h =>
    if rule.value ≤ 1 then true
    else if rule.startBlock > 0 then
      decide (h ≥ rule.startBlock) && decide ((h - rule.startBlock).tmod rule.value = 0)
    else decide (h.tmod rule.value = 0)
  let ruleBlocks := (blocks.filter fun b => checkAlignment b.height).take 80
  if ruleBlocks.length < 24 then
    { shouldPredict := false, nextP := none, confP := 0, nextS := none, confS := 0 }
  else
    let pSeq : String := String.mk ((ruleBlocks.take 12).map fun b =>
      if b.type = BlockType.ODD then 'O' else 'E')
    let sSeq : String := String.mk ((ruleBlocks.take 12).map fun b =>
      if b.sizeType = SizeType.BIG then 'B' else 'S')
    let oddCount := (ruleBlocks.filter fun b => decide (b.type = BlockType.ODD)).length
    let bigCount := (ruleBlocks.filter fun b => decide (b.sizeType = SizeType.BIG)).length
    let pBias : ℚ := (oddCount : ℚ) / (ruleBlocks.length : ℚ)
    let sBias : ℚ := (bigCount : ℚ) / (ruleBlocks.length : ℚ)
    let getBayesianConf : ℚ → ℚ := fun bias =>
      let deviation := |bias - 1/2|
      if deviation > 18/100 then 94 else if deviation > 12/100 then 88 else 50
    let checkPeriodicity : String → Option (BetTarget × ℚ) := fun seq =>
      if seq.startsWith "OEOEOE" || seq.startsWith "EOEOEO" then
        some (if seq.startsWith "O" then BetTarget.EVEN else BetTarget.ODD, 93)
      else if seq.startsWith "OOEEOO" || seq.startsWith "EEOOEE" then
        some (if seq.startsWith "O" then BetTarget.EVEN else BetTarget.ODD, 91)
      else if seq.startsWith "BSBSBS" || seq.startsWith "SBSBSB" then
        some (if seq.startsWith "B" then BetTarget.SMALL else BetTarget.BIG, 93)
      else if seq.startsWith "BBSSBB" || seq.startsWith "SSBBSS" then
        some (if seq.startsWith "B" then BetTarget.SMALL else BetTarget.BIG, 91)
      else none
    let checkDensity : String → Option (BetTarget × ℚ) := fun seq =>
      if seq.startsWith "OOOO" then some (BetTarget.ODD, 95)
      else if seq.startsWith "EEEE" then some (BetTarget.EVEN, 95)
      else if seq.startsWith "BBBB" then some (BetTarget.BIG, 95)
      else if seq.startsWith "SSSS" then some (BetTarget.SMALL, 95)
      else none
    let pPair : Option BetTarget × ℚ :=
      match checkPeriodicity pSeq with
      | some (v, c) => (some v, c)
      | none =>
        match checkDensity pSeq with
        | some (v, c) => (some v, c)
        | none =>
          let pBayesConf := getBayesianConf pBias
          if pBayesConf > 90 then
            (some (if pBias > 1/2 then BetTarget.EVEN else BetTarget.ODD), pBayesConf)
          else (none, 50)
    let sPair : Option BetTarget × ℚ :=
      match checkPeriodicity sSeq with
      | some (v, c) => (some v, c)
      | none =>
        match checkDensity sSeq with
        | some (v, c) => (some v, c)
        | none =>
          let sBayesConf := getBayesianConf sBias
          if sBayesConf > 90 then
            (some (if sBias > 1/2 then BetTarget.SMALL else BetTarget.BIG), sBayesConf)
          else (none, 50)
    let exclusive : (Option BetTarget × ℚ) × (Option BetTarget × ℚ) :=
      if pPair.2 > sPair.2 then (pPair, (none, 0))
      else if sPair.2 > pPair.2 then ((none, 0), sPair)
      else if pPair.2 ≥ 90 then (pPair, (none, 0))
      else ((none, 0), (none, 0))
    { shouldPredict := decide (exclusive.1.2 ≥ 92) || decide (exclusive.2.2 ≥ 92),
      nextP := exclusive.1.1, confP := exclusive.1.2,
      nextS := exclusive.2.1, confS := exclusive.2.2 }

/-- `runAIAnalysis` (part_000:1370-1454): the deterministic signal followed
by the entropy damper,
`shouldPredict = (confP >= 92 || confS >= 92) && entropy < 40`
(part_000:1450-1451). -/
def runAIAnalysis (rand : ℚ) (blocks : List BlockData) (rule : IntervalRule) : AIAnalysis :=
  let signal := runAIAnalysisSignal blocks rule
  let entropy := entropyDamper rand
  { signal with shouldPredict := signal.shouldPredict && decide (entropy < 40) }

/-- The per-settlement staking-progression transition (part_000:2105-2193):
the `switch (task.config.type)` updating `task.state`, including the final
`Math.floor` on the non-Kelly bet amount and the fixed reset used for
`AI_KELLY` (part_000:2192). -/
def advanceTaskState (cfg : StrategyConfig) (baseBet : ℚ) (s : StrategyState)
    (isWin : Bool) : StrategyState :=
  if cfg.type = StrategyType.AI_KELLY then
    { consecutiveLosses := 0, currentBetAmount := baseBet, sequenceIndex := 0 }
  else
    let next : StrategyState :=
      match cfg.type with
      | StrategyType.MARTINGALE =>
        if !isWin then
          let nextLosses := s.consecutiveLosses + 1
          if nextLosses ≥ cfg.maxCycle then
            { s with currentBetAmount := baseBet, consecutiveLosses := 0 }
          else
            { s with currentBetAmount := s.currentBetAmount * cfg.multiplier,
                     consecutiveLosses := nextLosses }
        else { s with currentBetAmount := baseBet, consecutiveLosses := 0 }
      | StrategyType.DALEMBERT =>
        if !isWin then
          { s with currentBetAmount := s.currentBetAmount + cfg.step,
                   consecutiveLosses := s.consecutiveLosses + 1 }
        else
          let a := s.currentBetAmount - cfg.step
          { s with currentBetAmount := if a < baseBet then baseBet else a,
                   consecutiveLosses := 0 }
      | StrategyType.FIBONACCI =>
        let idx := if !isWin then min (s.sequenceIndex + 1) (FIB_SEQ.length - 1)
                   else s.sequenceIndex - 2
        { s with sequenceIndex := idx, currentBetAmount := baseBet * FIB_SEQ.getD idx 0 }
      | StrategyType.PAROLI =>
        if isWin then
          let idx := s.sequenceIndex + 1
          if idx ≥ 3 then { s with sequenceIndex := 0, currentBetAmount := baseBet }
          else { s with sequenceIndex := idx, currentBetAmount := s.currentBetAmount * 2 }
        else { s with sequenceIndex := 0, currentBetAmount := baseBet }
      | StrategyType.S1326 =>
        if isWin then
          let idx := s.sequenceIndex + 1
          if idx ≥ SEQ_1326.length then { s with sequenceIndex := 0, currentBetAmount := baseBet }
          else { s with sequenceIndex := idx, currentBetAmount := baseBet * SEQ_1326.getD idx 0 }
        else { s with sequenceIndex := 0, currentBetAmount := baseBet }
      | StrategyType.CUSTOM =>
        let cSeq := cfg.customSequence.getD [1]
        let idx := if !isWin then (if s.sequenceIndex + 1 ≥ cSeq.length then 0
                                   else s.sequenceIndex + 1)
                   else 0
        { s with sequenceIndex := idx, currentBetAmount := baseBet * cSeq.getD idx 0 }
      | _ => { s with currentBetAmount := baseBet }
    { next with currentBetAmount := jsFloor next.currentBetAmount }

/-- The per-settlement task statistics update (part_000:2086-2101). -/
def settleTaskStats (stats : TaskStats) (isWin : Bool) (payout amount : ℚ) : TaskStats :=
  let sessionProfit := (if isWin then payout else 0) - amount
  let newTotalProfit := stats.profit + sessionProfit
  let peakProfit := max stats.peakProfit newTotalProfit
  { wins := stats.wins + (if isWin then 1 else 0),
    losses := stats.losses + (if isWin then 0 else 1),
    profit := newTotalProfit,
    maxProfit := max stats.maxProfit newTotalProfit,
    maxLoss := min stats.maxLoss newTotalProfit,
    totalBetAmount := stats.totalBetAmount + amount,
    peakProfit := peakProfit,
    maxDrawdown := max stats.maxDrawdown (peakProfit - newTotalProfit) }

/-- `nextTasks.findIndex(t => t.id === bet.taskId)` followed by in-place
mutation of that entry (part_000:2080-2083): update the first task with the
given id, leave the list unchanged when none matches. -/
def updateFirstTask (tid : String) (f : AutoTask → AutoTask) : List AutoTask → List AutoTask
  | [] => []
  | t :: ts => if t.id = tid then f t :: ts else t :: updateFirstTask tid f ts

/-- Ghost ledger event: a stake debit at placement or a payout credit at
settlement (carrying the post-settlement wager record). -/
inductive Ev where
  | placed (b : BetRecord)
  | settled (b : BetRecord)
deriving DecidableEq

/-- Accumulator of the settlement pass (part_000:2037-2046):
`currentBalance`, the mutated `nextTasks` clone, and the temporary global
drawdown metrics `tempPeak`/`tempMaxDD`. -/
structure SettleAcc where
  currentBalance : ℚ
  tasks : List AutoTask
  tempPeak : ℚ
  tempMaxDD : ℚ
deriving DecidableEq

/-- One iteration of the settlement `bets.map` body (part_000:2049-2200):
a PENDING wager whose target block is available is settled (payout credited,
drawdown metrics updated, owning task advanced, record stamped WIN/LOSS with
`payout` and `balanceAfter`); every other wager passes through unchanged. -/
def settleOneBet (allBlocks : List BlockData) (acc : SettleAcc) (bet : BetRecord) :
    SettleAcc × BetRecord × List Ev :=
  if bet.status = BetStatus.PENDING then
    match allBlocks.find? (fun b => decide (b.height = bet.targetHeight)) with
    | some targetBlock =>
      let isWin := decide (blockValue targetBlock bet.betType = bet.prediction)
      let payout := if isWin then bet.amount * bet.odds else 0
      let bal := acc.currentBalance + payout
      let peak := if bal > acc.tempPeak then bal else acc.tempPeak
      let currentDD := peak - bal
      let maxDD := if currentDD > acc.tempMaxDD then currentDD else acc.tempMaxDD
      let tasks' :=
        match bet.taskId with
        | some tid =>
          updateFirstTask tid (fun t =>
            { t with stats := settleTaskStats t.stats isWin payout bet.amount,
                     state := advanceTaskState t.config t.baseBet t.state isWin }) acc.tasks
        | none => acc.tasks
      let bet' := { bet with
        status := (if isWin then BetStatus.WIN else BetStatus.LOSS),
        payout := payout, balanceAfter := bal }
      (⟨bal, tasks', peak, maxDD⟩, bet', [Ev.settled bet'])
    | none => (acc, bet, [])
  else (acc, bet, [])

/-- The settlement pass `bets.map(...)` (part_000:2049-2201), with the
closure mutations of `currentBalance`/`nextTasks`/`tempPeak`/`tempMaxDD`
threaded left-to-right through the accumulator. -/
def settleBets (allBlocks : List BlockData) (acc : SettleAcc) :
    List BetRecord → SettleAcc × List BetRecord × List Ev
  | [] => (acc, [], [])
  | bet :: rest =>
    let r1 := settleOneBet allBlocks acc bet
    let r2 := settleBets allBlocks r1.1 rest
    (r2.1, r1.2.1 :: r2.2.1, r1.2.2 ++ r2.2.2)

/-- The Kelly fraction `f = (b·p − q) / b` (part_000:2483-2486).  In ℚ,
division by zero yields 0, which (like the JS NaN or negative-infinity produced when
`odds = 1`) fails the `f > 0` test and falls back to the base stake. -/
def kellyF (odds confidence : ℚ) : ℚ :=
  let b_odds := odds - 1
  let p := confidence / 100
  let q := 1 - p
  (b_odds * p - q) / b_odds

/-- The AI-Kelly stake (part_000:2482-2495, identically inlined at
part_000:2274-2289 and 2378-2393): `floor(balance · f · fraction)` when
`f > 0`, else the base stake; then floored at `config.baseBet` and capped
at the current balance.  `kellyFraction || 0.2` is the JS falsy fallback. -/
def kellyAmount (odds baseBet balance confidence : ℚ) (kellyFraction : Option ℚ) : ℚ :=
  let f := kellyF odds confidence
  let amount :=
    if f > 0 then jsFloor (balance * f * jsOrQ (kellyFraction.getD 0) 0.2)
    else baseBet
  min (max baseBet amount) balance

/-- Stake actually wagered by a task: `Math.floor(task.state.currentBetAmount)`,
replaced by the Kelly computation for `AI_KELLY` tasks (part_000:2479-2496). -/
def taskBetAmount (cfg : SimConfig) (task : AutoTask) (balance confidence : ℚ) : ℚ :=
  if task.config.type = StrategyType.AI_KELLY then
    kellyAmount cfg.odds cfg.baseBet balance confidence task.config.kellyFraction
  else jsFloor task.state.currentBetAmount

/-- A task-owned wager as constructed by the engine (part_000:2498-2514):
created PENDING with zero payout and zero `balanceAfter`. -/
def mkTaskBet (taskId : String) (rid : String) (targetHeight : ℤ) (ty : BetType)
    (target : BetTarget) (amount odds : ℚ) : BetRecord :=
  { taskId := some taskId, ruleId := rid, targetHeight := targetHeight, betType := ty,
    prediction := target, amount := amount, odds := odds, status := BetStatus.PENDING,
    payout := 0, balanceAfter := 0 }

/-- The duplicate-wager test used by the engine before placing for a task
(part_000:2428, 2269, 2373): a wager with the same rule, target height and
owner already exists. -/
def hasBetFor (bets : List BetRecord) (rid : String) (h : ℤ) (tid : Option String) : Bool :=
  bets.any fun b =>
    decide (b.targetHeight = h) && decide (b.ruleId = rid) && decide (b.taskId = tid)

/-- The already-pending test of the global-scan tasks (part_000:2223, 2319). -/
def hasPendingFor (bets : List BetRecord) (tid : String) : Bool :=
  bets.any fun b => decide (b.taskId = some tid) && decide (b.status = BetStatus.PENDING)

/-- Accumulator of the placement pass: `currentBalance` and `finalBets`
(part_000:2204). -/
structure PlaceAcc where
  currentBalance : ℚ
  finalBets : List BetRecord
deriving DecidableEq

/-- `currentBalance -= amount; finalBets.unshift(newBet)` (part_000:2515-2516). -/
def placeNewBet (nb : BetRecord) (acc : PlaceAcc) : PlaceAcc × List Ev :=
  ({ currentBalance := acc.currentBalance - nb.amount, finalBets := nb :: acc.finalBets },
   [Ev.placed nb])

/-- `bestCandidate` of the full-AI-scan task (part_000:2226-2233). -/
structure ScanCandidate where
  confidence : ℚ
  rule : Option IntervalRule
  type : BetType
  target : BetTarget
  height : ℤ
deriving DecidableEq

/-- `bestCandidate` of the dragon tasks (part_000:2322). -/
structure DragonCandidate where
  streak : ℕ
  rule : Option IntervalRule
  type : BetType
  target : BetTarget
  height : ℤ
deriving DecidableEq

/-- One rule of the full-scan `rules.forEach` (part_000:2236-2264). -/
def fullScanStep (rand : ℚ) (blocks : List BlockData) (top : ℤ)
    (best : ScanCandidate) (rule : IntervalRule) : ScanCandidate :=
  let analysis := runAIAnalysis rand blocks rule
  if !analysis.shouldPredict then best
  else
    let nextH := getNextTargetHeight top rule.value rule.startBlock
    let best1 :=
      match analysis.nextP with
      | some p =>
        if analysis.confP > best.confidence then
          { confidence := analysis.confP, rule := some rule, type := BetType.PARITY,
            target := p, height := nextH }
        else best
      | none => best
    match analysis.nextS with
    | some sv =>
      if analysis.confS > best1.confidence then
        { confidence := analysis.confS, rule := some rule, type := BetType.SIZE,
          target := sv, height := nextH }
      else best1
    | none => best1

/-- The `GLOBAL_AI_FULL_SCAN` branch of the placement pass
(part_000:2222-2314). -/
def processFullScanTask (rules : List IntervalRule) (blocks : List BlockData)
    (cfg : SimConfig) (rand : ℚ) (acc : PlaceAcc) (task : AutoTask) : PlaceAcc × List Ev :=
  if hasPendingFor acc.finalBets task.id then (acc, [])
  else
    let best := rules.foldl (fullScanStep rand blocks (headHeight blocks))
      { confidence := 0, rule := none, type := BetType.PARITY, target := BetTarget.ODD,
        height := 0 }
    match best.rule with
    | none => (acc, [])
    | some r =>
      if best.confidence ≥ 94 then
        if hasBetFor acc.finalBets r.id best.height (some task.id) then (acc, [])
        else
          placeNewBet
            (mkTaskBet task.id r.id best.height best.type best.target
              (taskBetAmount cfg task acc.currentBalance best.confidence) cfg.odds) acc
      else (acc, [])

/-- One rule of the trend-dragon scan (part_000:2325-2340). -/
def trendDragonStep (blocks : List BlockData) (top : ℤ)
    (best : DragonCandidate) (rule : IntervalRule) : DragonCandidate :=
  let ruleBlocks := blocks.filter fun b => checkRuleAlignment b.height rule
  if ruleBlocks.isEmpty then best
  else
    let nextH := getNextTargetHeight top rule.value rule.startBlock
    let pStreak := calculateStreak ruleBlocks BetType.PARITY
    let best1 :=
      match pStreak.1 with
      | some v =>
        if pStreak.2 > best.streak then
          { streak := pStreak.2, rule := some rule, type := BetType.PARITY, target := v,
            height := nextH }
        else best
      | none => best
    let sStreak := calculateStreak ruleBlocks BetType.SIZE
    match sStreak.1 with
    | some v =>
      if sStreak.2 > best1.streak then
        { streak := sStreak.2, rule := some rule, type := BetType.SIZE, target := v,
          height := nextH }
      else best1
    | none => best1

/-- One bead row of the bead-dragon scan (part_000:2344-2366). -/
def beadDragonRowStep (blocks : List BlockData) (top : ℤ) (rule : IntervalRule)
    (rows : ℤ) (best : DragonCandidate) (r : ℕ) : DragonCandidate :=
  let rowBlocks := getBeadRowBlocks blocks rule (r : ℤ)
  if rowBlocks.isEmpty then best
  else
    let pStreak := calculateStreak rowBlocks BetType.PARITY
    let best1 :=
      match pStreak.1 with
      | some v =>
        if pStreak.2 > best.streak then
          let lastH := headHeight rowBlocks
          let nextH := lastH + rule.value * rows
          if nextH > top then
            { streak := pStreak.2, rule := some rule, type := BetType.PARITY, target := v,
              height := nextH }
          else best
        else best
      | none => best
    let sStreak := calculateStreak rowBlocks BetType.SIZE
    match sStreak.1 with
    | some v =>
      if sStreak.2 > best1.streak then
        let lastH := headHeight rowBlocks
        let nextH := lastH + rule.value * rows
        if nextH > top then
          { streak := sStreak.2, rule := some rule, type := BetType.SIZE, target := v,
            height := nextH }
        else best1
      else best1
    | none => best1

/-- One rule of the bead-dragon scan: the `for (let r = 0; r < rows; r++)`
loop (part_000:2342-2367). -/
def beadDragonStep (blocks : List BlockData) (top : ℤ)
    (best : DragonCandidate) (rule : IntervalRule) : DragonCandidate :=
  let rows := jsOrZ rule.beadRows 6
  (List.range rows.toNat).foldl (beadDragonRowStep blocks top rule rows) best

/-- One rule of the dragon `rules.forEach` (part_000:2324-2368), dispatching
on the task's mode. -/
def dragonStep (mode : AutoTargetMode) (blocks : List BlockData) (top : ℤ)
    (best : DragonCandidate) (rule : IntervalRule) : DragonCandidate :=
  if mode = AutoTargetMode.GLOBAL_TREND_DRAGON then trendDragonStep blocks top best rule
  else if mode = AutoTargetMode.GLOBAL_BEAD_DRAGON then beadDragonStep blocks top best rule
  else best

/-- The `GLOBAL_TREND_DRAGON` / `GLOBAL_BEAD_DRAGON` branch of the
placement pass (part_000:2317-2419). -/
def processDragonTask (rules : List IntervalRule) (blocks : List BlockData)
    (cfg : SimConfig) (acc : PlaceAcc) (task : AutoTask) : PlaceAcc × List Ev :=
  if hasPendingFor acc.finalBets task.id then (acc, [])
  else
    let top := headHeight blocks
    let best := rules.foldl (dragonStep task.config.autoTarget blocks top)
      { streak := 0, rule := none, type := BetType.PARITY, target := BetTarget.ODD,
        height := 0 }
    if best.streak ≥ task.config.minStreak then
      match best.rule with
      | none => (acc, [])
      | some r =>
        if hasBetFor acc.finalBets r.id best.height (some task.id) then (acc, [])
        else
          placeNewBet
            (mkTaskBet task.id r.id best.height best.type best.target
              (taskBetAmount cfg task acc.currentBalance 60) cfg.odds) acc
    else (acc, [])

/-- The bet decision of a standard (single-rule) task (part_000:2430-2476):
bet type, target, whether to bet, and the confidence fed to Kelly sizing
(`currentConfidence`, defaulting to 60). -/
structure BetChoice where
  type : BetType
  target : BetTarget
  shouldBet : Bool
  confidence : ℚ
deriving DecidableEq

/-- The target-selection policy of a standard task (part_000:2432-2476). -/
def standardBetChoice (rand : ℚ) (allBlocks ruleBlocks : List BlockData)
    (rule : IntervalRule) (cfg : StrategyConfig) : BetChoice :=
  let init : BetChoice :=
    { type := BetType.PARITY, target := BetTarget.ODD, shouldBet := false, confidence := 60 }
  match cfg.autoTarget with
  | AutoTargetMode.AI_PREDICTION =>
    let analysis := runAIAnalysis rand allBlocks rule
    if analysis.shouldPredict then
      if decide (analysis.confP ≥ analysis.confS) && decide (analysis.confP ≥ 92)
          && analysis.nextP.isSome then
        { type := BetType.PARITY, target := analysis.nextP.getD BetTarget.ODD,
          shouldBet := true, confidence := analysis.confP }
      else if decide (analysis.confS > analysis.confP) && decide (analysis.confS ≥ 92)
          && analysis.nextS.isSome then
        { type := BetType.SIZE, target := analysis.nextS.getD BetTarget.ODD,
          shouldBet := true, confidence := analysis.confS }
      else init
    else init
  | AutoTargetMode.FIXED_ODD =>
    { type := BetType.PARITY, target := BetTarget.ODD, shouldBet := true, confidence := 60 }
  | AutoTargetMode.FIXED_EVEN =>
    { type := BetType.PARITY, target := BetTarget.EVEN, shouldBet := true, confidence := 60 }
  | AutoTargetMode.FIXED_BIG =>
    { type := BetType.SIZE, target := BetTarget.BIG, shouldBet := true, confidence := 60 }
  | AutoTargetMode.FIXED_SMALL =>
    { type := BetType.SIZE, target := BetTarget.SMALL, shouldBet := true, confidence := 60 }
  | AutoTargetMode.FOLLOW_LAST =>
    if ruleBlocks.isEmpty then init
    else
      let targetType := cfg.targetType.getD BetType.PARITY
      let streak := calculateStreak ruleBlocks targetType
      if streak.2 ≥ cfg.minStreak then
        match streak.1 with
        | some v =>
          { type := targetType, target := v, shouldBet := true, confidence := 60 }
        | none => { init with type := targetType }
      else { init with type := targetType }
  | AutoTargetMode.REVERSE_LAST =>
    if ruleBlocks.isEmpty then init
    else
      let targetType := cfg.targetType.getD BetType.PARITY
      let streak := calculateStreak ruleBlocks targetType
      if streak.2 ≥ cfg.minStreak then
        match streak.1 with
        | some v =>
          let flipped :=
            if targetType = BetType.PARITY then
              (if v = BetTarget.ODD then BetTarget.EVEN else BetTarget.ODD)
            else
              (if v = BetTarget.BIG then BetTarget.SMALL else BetTarget.BIG)
          { type := targetType, target := flipped, shouldBet := true, confidence := 60 }
        | none => { init with type := targetType }
      else { init with type := targetType }
  | _ => init

/-- The standard-task branch of the placement pass (part_000:2421-2518). -/
def processStandardTask (rules : List IntervalRule) (blocks : List BlockData)
    (cfg : SimConfig) (rand : ℚ) (acc : PlaceAcc) (task : AutoTask) : PlaceAcc × List Ev :=
  match rules.find? (fun r => decide (r.id = task.ruleId)) with
  | none => (acc, [])
  | some rule =>
    let nextHeight := getNextTargetHeight (headHeight blocks) rule.value rule.startBlock
    if hasBetFor acc.finalBets rule.id nextHeight (some task.id) then (acc, [])
    else
      let ruleBlocks := blocks.filter fun b => checkRuleAlignment b.height rule
      let choice := standardBetChoice rand blocks ruleBlocks rule task.config
      if choice.shouldBet then
        placeNewBet
          (mkTaskBet task.id rule.id nextHeight choice.type choice.target
            (taskBetAmount cfg task acc.currentBalance choice.confidence) cfg.odds) acc
      else (acc, [])

/-- One task of the placement `nextTasks.forEach` (part_000:2212-2519):
inactive tasks are skipped, a task whose base stake exceeds the balance is
deactivated ("basic bankruptcy check", part_000:2214-2219), otherwise the
branch matching the task's target mode runs. -/
def processTask (rules : List IntervalRule) (blocks : List BlockData) (cfg : SimConfig)
    (rand : ℚ) (acc : PlaceAcc) (task : AutoTask) : PlaceAcc × AutoTask × List Ev :=
  if !task.isActive then (acc, task, [])
  else if acc.currentBalance < task.baseBet then (acc, { task with isActive := false }, [])
  else
    match task.config.autoTarget with
    | AutoTargetMode.GLOBAL_AI_FULL_SCAN =>
      let r := processFullScanTask rules blocks cfg rand acc task
      (r.1, task, r.2)
    | AutoTargetMode.GLOBAL_TREND_DRAGON =>
      let r := processDragonTask rules blocks cfg acc task
      (r.1, task, r.2)
    | AutoTargetMode.GLOBAL_BEAD_DRAGON =>
      let r := processDragonTask rules blocks cfg acc task
      (r.1, task, r.2)
    | _ =>
      let r := processStandardTask rules blocks cfg rand acc task
      (r.1, task, r.2)

/-- The placement pass over all tasks, in list order (part_000:2212). -/
def processTasks (rules : List IntervalRule) (blocks : List BlockData) (cfg : SimConfig)
    (rand : ℚ) (acc : PlaceAcc) :
    List AutoTask → PlaceAcc × List AutoTask × List Ev
  | [] => (acc, [], [])
  | t :: ts =>
    let r1 := processTask rules blocks cfg rand acc t
    let r2 := processTasks rules blocks cfg rand r1.1 ts
    (r2.1, r1.2.1 :: r2.2.1, r1.2.2 ++ r2.2.2)

/-- One tick of the v4 MULTI-THREAD ENGINE `useEffect` (part_000:2033-2540):
settle resolvable wagers, compute the global stop condition from the
post-settlement profit, then either deactivate every task (stop tripped,
part_000:2520-2526) or run the placement pass; commit balance, bets, tasks
and drawdown metrics. -/
def runCycle (rules : List IntervalRule) (allBlocks : List BlockData) (rand : ℚ)
    (st : EngineState) : EngineState × List Ev :=
  if allBlocks.isEmpty then (st, [])
  else
    let r1 := settleBets allBlocks
      ⟨st.balance, st.tasks, st.globalMetrics.peakBalance, st.globalMetrics.maxDrawdown⟩
      st.bets
    let acc1 := r1.1
    let updatedBets := r1.2.1
    let profit := acc1.currentBalance - st.config.initialBalance
    let globalStop :=
      (decide (st.config.takeProfit > 0) && decide (profit ≥ st.config.takeProfit)) ||
      (decide (st.config.stopLoss > 0) && decide (profit ≤ -st.config.stopLoss))
    if globalStop then
      ({ balance := acc1.currentBalance, bets := updatedBets,
         tasks := acc1.tasks.map (fun t => { t with isActive := false }),
         config := st.config,
         globalMetrics := ⟨acc1.tempPeak, acc1.tempMaxDD⟩ }, r1.2.2)
    else
      let r2 := processTasks rules allBlocks st.config rand
        ⟨acc1.currentBalance, updatedBets⟩ acc1.tasks
      ({ balance := r2.1.currentBalance, bets := r2.1.finalBets, tasks := r2.2.1,
         config := st.config,
         globalMetrics := ⟨acc1.tempPeak, acc1.tempMaxDD⟩ }, r1.2.2 ++ r2.2.2)

/-- The settlement phase of one engine tick, as invoked by `runCycle`:
`settleBets` started from the committed balance, tasks and drawdown
metrics (part_000:2037-2049). -/
def settlementPhase (blocks : List BlockData) (st : EngineState) :
    SettleAcc × List BetRecord × List Ev :=
  settleBets blocks
    ⟨st.balance, st.tasks, st.globalMetrics.peakBalance, st.globalMetrics.maxDrawdown⟩
    st.bets

/-- The duplicate test of the v4 `placeBet` gateway (part_000:1924-1928):
for a MANUAL placement any task-less wager on the same rule and height, for
an AUTO placement any wager of the same task on the same rule and height. -/
def placeBetDuplicate (bets : List BetRecord) (targetHeight : ℤ) (rule : IntervalRule)
    (source : BetSource) (taskId : Option String) : Bool :=
  bets.any fun b =>
    decide (b.targetHeight = targetHeight) && decide (b.ruleId = rule.id) &&
      (match source with
       | BetSource.MANUAL => b.taskId.isNone
       | BetSource.AUTO => decide (b.taskId = taskId))

/-- The v4 `placeBet` gateway (part_000:1913-1953): refuse (return false,
state unchanged) on a duplicate, otherwise debit the stake and prepend the
new PENDING wager.  There is no balance check in this generation. -/
def placeBet (targetHeight : ℤ) (ty : BetType) (target : BetTarget) (amount : ℚ)
    (source : BetSource) (rule : IntervalRule) (taskId : Option String)
    (st : EngineState) : Bool × EngineState × List Ev :=
  if placeBetDuplicate st.bets targetHeight rule source taskId then (false, st, [])
  else
    let newBet : BetRecord :=
      { taskId := taskId, ruleId := rule.id, targetHeight := targetHeight, betType := ty,
        prediction := target, amount := amount, odds := st.config.odds,
        status := BetStatus.PENDING, payout := 0, balanceAfter := 0 }
    (true, { st with balance := st.balance - amount, bets := newBet :: st.bets },
     [Ev.placed newBet])

/-- The v2 `placeBet` (src/components/SimulatedBetting.tsx:231-266): refuse
when the supplied balance is below the stake or a wager for the active rule
and height exists; otherwise debit and prepend (this generation stamps
`balanceAfter` with the pre-debit balance at placement). -/
def placeBetV2 (targetHeight : ℤ) (ty : BetType) (target : BetTarget) (amount : ℚ)
    (currentBal : ℚ) (activeRule : IntervalRule) (odds : ℚ)
    (balance : ℚ) (bets : List BetRecord) : Bool × ℚ × List BetRecord :=
  if currentBal < amount then (false, balance, bets)
  else if bets.any (fun b =>
      decide (b.targetHeight = targetHeight) && decide (b.ruleId = activeRule.id)) then
    (false, balance, bets)
  else
    let newBet : BetRecord :=
      { taskId := none, ruleId := activeRule.id, targetHeight := targetHeight,
        betType := ty, prediction := target, amount := amount, odds := odds,
        status := BetStatus.PENDING, payout := 0, balanceAfter := currentBal }
    (true, balance - amount, newBet :: bets)

/-- A freshly reset engine state for a configuration: the configured initial
balance, no wagers, no tasks, peak balance at the initial balance
(part_000:2008-2022 and the state initializers at part_000:1768-1831). -/
def initState (cfg : SimConfig) : EngineState :=
  { balance := cfg.initialBalance, bets := [], tasks := [], config := cfg,
    globalMetrics := { peakBalance := cfg.initialBalance, maxDrawdown := 0 } }

/-- `createTask` (part_000:1955-1983): append a new paused task with a
snapshot of the draft config, the global base bet, zeroed stats, and an
initial stake equal to the base bet (scaled by the first custom multiplier
for CUSTOM tasks). -/
def createTask (id name ruleId : String) (draftConfig : StrategyConfig)
    (st : EngineState) : EngineState :=
  let initialAmount :=
    match draftConfig.type, draftConfig.customSequence with
    | StrategyType.CUSTOM, some seq => st.config.baseBet * seq.getD 0 0
    | _, _ => st.config.baseBet
  let newTask : AutoTask :=
    { id := id, name := name, ruleId := ruleId, config := draftConfig,
      baseBet := st.config.baseBet,
      state := { consecutiveLosses := 0, currentBetAmount := initialAmount,
                 sequenceIndex := 0 },
      isActive := false,
      stats := { wins := 0, losses := 0, profit := 0, maxProfit := 0, maxLoss := 0,
                 totalBetAmount := 0, peakProfit := 0, maxDrawdown := 0 } }
  { st with tasks := st.tasks ++ [newTask] }

/-- `toggleTask` (part_000:1985-1987). -/
def toggleTask (taskId : String) (st : EngineState) : EngineState :=
  { st with tasks := st.tasks.map fun t =>
      if t.id = taskId then { t with isActive := !t.isActive } else t }

/-- `startAllTasks` (part_000:1989-1991). -/
def startAllTasks (st : EngineState) : EngineState :=
  { st with tasks := st.tasks.map fun t => { t with isActive := true } }

/-- `stopAllTasks` (part_000:1993-1995). -/
def stopAllTasks (st : EngineState) : EngineState :=
  { st with tasks := st.tasks.map fun t => { t with isActive := false } }

/-- `deleteTask` (part_000:1997-1999). -/
def deleteTask (taskId : String) (st : EngineState) : EngineState :=
  { st with tasks := st.tasks.filter fun t => !decide (t.id = taskId) }

/-- The operator config commands (the base-bet / initial-balance / odds /
take-profit / stop-loss inputs, part_000:2796-2827): every `SimConfig`
field is adjustable, including `initialBalance` (part_000:2815), and none
of the edits touches the live `balance`. -/
def adjustRiskConfig (initialBalance odds stopLoss takeProfit baseBet : ℚ)
    (st : EngineState) : EngineState :=
  { st with config :=
      { initialBalance := initialBalance, odds := odds, stopLoss := stopLoss,
        takeProfit := takeProfit, baseBet := baseBet } }

/-- The identity of a wager for the no-duplicate invariant:
`(ruleId, targetHeight, taskId-or-manual)`. -/
def betKey (b : BetRecord) : String × ℤ × Option String := (b.ruleId, b.targetHeight, b.taskId)

/-- No two wagers in the ledger share a `(ruleId, targetHeight, source)` key. -/
def NoDupWagers (bets : List BetRecord) : Prop :=
  bets.Pairwise fun a b => betKey a ≠ betKey b

/-- Replay of the ledger events from a starting balance: debit the stake at
each placement, credit the payout at each settlement. -/
def replayBalance (bal : ℚ) : List Ev → ℚ
  | [] => bal
  | Ev.placed b :: tr => replayBalance (bal - b.amount) tr
  | Ev.settled b :: tr => replayBalance (bal + b.payout) tr

/-- The replay reproduces every recorded `balanceAfter`: at each settlement
event, the running balance after crediting the payout equals the
`balanceAfter` stamped on the settled wager. -/
def replayMatches (bal : ℚ) : List Ev → Bool
  | [] => true
  | Ev.placed b :: tr => replayMatches (bal - b.amount) tr
  | Ev.settled b :: tr => decide (bal + b.payout = b.balanceAfter) && replayMatches (bal + b.payout) tr

/-- The states (with their ghost event traces) reachable by the v4 engine
in a session that was reset with configuration `cfg0`: the reset state,
followed by any interleaving of manual placements (part_000:1110-1117
invoke `placeBet` with source MANUAL and no task id), engine cycles, task
management commands and config adjustments — including mid-session edits of
`config.initialBalance` (part_000:2815), which change the config but not
the live balance.  `resetAccount` (part_000:2002-2030) yields `initState`
of the default config with an empty trace, which the `init` constructor of
a fresh session already covers. -/
inductive Reachable (cfg0 : SimConfig) : EngineState → List Ev → Prop where
  | init : Reachable cfg0 (initState cfg0) []
  | manualPlace (targetHeight : ℤ) (ty : BetType) (target : BetTarget) (amount : ℚ)
      (rule : IntervalRule) {st : EngineState} {tr : List Ev} :
      Reachable cfg0 st tr →
      Reachable cfg0
        (placeBet targetHeight ty target amount BetSource.MANUAL rule none st).2.1
        (tr ++ (placeBet targetHeight ty target amount BetSource.MANUAL rule none st).2.2)
  | cycle (rules : List IntervalRule) (blocks : List BlockData) (rand : ℚ)
      {st : EngineState} {tr : List Ev} :
      Reachable cfg0 st tr →
      Reachable cfg0 (runCycle rules blocks rand st).1
        (tr ++ (runCycle rules blocks rand st).2)
  | create (id name ruleId : String) (draftConfig : StrategyConfig)
      {st : EngineState} {tr : List Ev} :
      Reachable cfg0 st tr → Reachable cfg0 (createTask id name ruleId draftConfig st) tr
  | toggle (taskId : String) {st : EngineState} {tr : List Ev} :
      Reachable cfg0 st tr → Reachable cfg0 (toggleTask taskId st) tr
  | startAll {st : EngineState} {tr : List Ev} :
      Reachable cfg0 st tr → Reachable cfg0 (startAllTasks st) tr
  | stopAll {st : EngineState} {tr : List Ev} :
      Reachable cfg0 st tr → Reachable cfg0 (stopAllTasks st) tr
  | remove (taskId : String) {st : EngineState} {tr : List Ev} :
      Reachable cfg0 st tr → Reachable cfg0 (deleteTask taskId st) tr
  | adjust (initialBalance odds stopLoss takeProfit baseBet : ℚ)
      {st : EngineState} {tr : List Ev} :
      Reachable cfg0 st tr →
      Reachable cfg0 (adjustRiskConfig initialBalance odds stopLoss takeProfit baseBet st) tr

/-- Default configuration of the simulator (part_000:1785-1791). -/
def wCfg : SimConfig :=
  { initialBalance := 10000, odds := 198/100, stopLoss := 0, takeProfit := 0, baseBet := 100 }

/-- A per-block sampling rule (every height aligned). -/
def wRule : IntervalRule := { id := "r1", value := 1, startBlock := 0, beadRows := 6 }

/-- A step-20, offset-0 sampling rule. -/
def wRule20 : IntervalRule := { id := "r20", value := 20, startBlock := 0, beadRows := 6 }

/-- A step-20 rule anchored at start block 100. -/
def wRule20off100 : IntervalRule := { id := "r20b", value := 20, startBlock := 100, beadRows := 6 }

/-- A sample block at height 10, classified ODD / BIG. -/
def wBlock : BlockData := { height := 10, type := BlockType.ODD, sizeType := SizeType.BIG }

/-- A MARTINGALE strategy configuration with multiplier 2 and max cycle 3. -/
def martingaleCfg : StrategyConfig :=
  { type := StrategyType.MARTINGALE, autoTarget := AutoTargetMode.FIXED_ODD,
    targetType := some BetType.PARITY, multiplier := 2, maxCycle := 3, step := 10,
    minStreak := 1, customSequence := none, kellyFraction := none }

/-- Zeroed task statistics. -/
def zeroStats : TaskStats :=
  { wins := 0, losses := 0, profit := 0, maxProfit := 0, maxLoss := 0, totalBetAmount := 0,
    peakProfit := 0, maxDrawdown := 0 }

/-- An active MARTINGALE task two losses into its cycle: base stake 100,
next required stake 400. -/
def wTaskC4 : AutoTask :=
  { id := "t1", name := "T1", ruleId := "r1", config := martingaleCfg, baseBet := 100,
    state := { consecutiveLosses := 2, currentBetAmount := 400, sequenceIndex := 0 },
    isActive := true, stats := zeroStats }

/-- A state whose bankroll (200) is below the task's next required stake
(400) but above its base stake (100). -/
def wStateC4 : EngineState :=
  { balance := 200, bets := [], tasks := [wTaskC4], config := wCfg,
    globalMetrics := { peakBalance := 10000, maxDrawdown := 0 } }

/-- A state whose bankroll (50) is below a manual stake of 100. -/
def wStateC5 : EngineState :=
  { balance := 50, bets := [], tasks := [], config := wCfg,
    globalMetrics := { peakBalance := 10000, maxDrawdown := 0 } }

/-- Stop-loss configuration: initial balance 10000, stop-loss 500, odds 2. -/
def wCfgStopLoss : SimConfig :=
  { initialBalance := 10000, odds := 2, stopLoss := 500, takeProfit := 0, baseBet := 100 }

/-- A pending manual wager on EVEN at height 10 with stake 100 and odds 2. -/
def wBetC6 : BetRecord :=
  { taskId := none, ruleId := "r1", targetHeight := 10, betType := BetType.PARITY,
    prediction := BetTarget.EVEN, amount := 100, odds := 2, status := BetStatus.PENDING,
    payout := 0, balanceAfter := 0 }

/-- An active FIXED-ODD task whose entry condition is always met. -/
def wTaskC6 : AutoTask :=
  { wTaskC4 with state := { consecutiveLosses := 0, currentBetAmount := 100, sequenceIndex := 0 } }

/-- A state at balance 9500 that trips the 500 stop-loss once the pending
wager settles as a loss. -/
def wStateC6 : EngineState :=
  { balance := 9500, bets := [wBetC6], tasks := [wTaskC6], config := wCfgStopLoss,
    globalMetrics := { peakBalance := 10000, maxDrawdown := 0 } }

/-- The engine state after one manual placement from a fresh reset. -/
def wState1 : EngineState :=
  (placeBet 20 BetType.PARITY BetTarget.ODD 100 BetSource.MANUAL wRule none (initState wCfg)).2.1

/-- The ghost trace of that placement. -/
def wTrace1 : List Ev :=
  [] ++ (placeBet 20 BetType.PARITY BetTarget.ODD 100 BetSource.MANUAL wRule none (initState wCfg)).2.2

/-- The engine state after attempting the same manual placement twice (the
second attempt is a duplicate and is refused). -/
def wState2 : EngineState :=
  (placeBet 20 BetType.PARITY BetTarget.ODD 100 BetSource.MANUAL wRule none wState1).2.1

/-- The ghost trace after the duplicate attempt. -/
def wTrace2 : List Ev :=
  wTrace1 ++ (placeBet 20 BetType.PARITY BetTarget.ODD 100 BetSource.MANUAL wRule none wState1).2.2

/-- The reset state of the default session after the operator edits the
configured initial balance down to 5000 (part_000:2815); the live balance
stays at the session's actual starting balance 10000. -/
def wStateC1 : EngineState := adjustRiskConfig 5000 2 0 0 100 (initState wCfg)

/-- An active FIXED-ODD task carrying a negative base stake: the config
inputs are raw `parseFloat` values (part_000:2796) with no validation, so a
negative operator-supplied base bet reaches task creation unchanged. -/
def wTaskC4neg : AutoTask :=
  { wTaskC4 with
    id := "t2", baseBet := -100,
    state := { consecutiveLosses := 0, currentBetAmount := -100, sequenceIndex := 0 } }

/-- A state holding the negative-base-stake task. -/
def wStateC4neg : EngineState :=
  { balance := 200, bets := [], tasks := [wTaskC4neg], config := wCfg,
    globalMetrics := { peakBalance := 10000, maxDrawdown := 0 } }

/-- Shape of one task's effect on the placement accumulator: either nothing
happens, or exactly one new PENDING wager owned by the task is prepended
(with its stake debited) after the duplicate-key guard ruled out an existing
wager with the same `(ruleId, targetHeight, taskId)`. -/
def PlaceSpec (tid : String) (acc : PlaceAcc) (res : PlaceAcc × List Ev) : Prop :=
  res = (acc, []) ∨
  ∃ nb : BetRecord,
    nb.status = BetStatus.PENDING ∧ nb.taskId = some tid ∧
    hasBetFor acc.finalBets nb.ruleId nb.targetHeight nb.taskId = false ∧
    res = ({ currentBalance := acc.currentBalance - nb.amount,
             finalBets := nb :: acc.finalBets }, [Ev.placed nb])

theorem replayBalance_append (bal : ℚ) (t1 t2 : List Ev) :
    replayBalance bal (t1 ++ t2) = replayBalance (replayBalance bal t1) t2 := by
  induction t1 generalizing bal with
  | nil => rfl
  | cons e t ih => cases e <;> simp [replayBalance, ih]

theorem replayMatches_append (bal : ℚ) (t1 t2 : List Ev) :
    replayMatches bal (t1 ++ t2) =
      (replayMatches bal t1 && replayMatches (replayBalance bal t1) t2) := by
  induction t1 generalizing bal with
  | nil => rfl
  | cons e t ih =>
    cases e with
    | placed b => simp [replayMatches, replayBalance, ih]
    | settled b => simp [replayMatches, replayBalance, ih, Bool.and_assoc]

theorem settleOneBet_spec (blocks : List BlockData) (acc : SettleAcc) (bet : BetRecord) :
    (settleOneBet blocks acc bet).1.currentBalance
        = replayBalance acc.currentBalance (settleOneBet blocks acc bet).2.2
    ∧ replayMatches acc.currentBalance (settleOneBet blocks acc bet).2.2 = true
    ∧ betKey (settleOneBet blocks acc bet).2.1 = betKey bet
    ∧ ((settleOneBet blocks acc bet).2.1.status ≠ BetStatus.PENDING →
        Ev.settled (settleOneBet blocks acc bet).2.1 ∈ (settleOneBet blocks acc bet).2.2
        ∨ (settleOneBet blocks acc bet).2.1 = bet) := by
  unfold settleOneBet
  split
  · split
    · refine ⟨?_, ?_, ?_, fun _ => Or.inl ?_⟩ <;>
        simp [replayBalance, replayMatches, betKey]
    · exact ⟨rfl, rfl, rfl, fun _ => Or.inr rfl⟩
  · exact ⟨rfl, rfl, rfl, fun _ => Or.inr rfl⟩

theorem settleBets_nil (blocks : List BlockData) (acc : SettleAcc) :
    settleBets blocks acc [] = (acc, [], []) := rfl

theorem settleBets_cons (blocks : List BlockData) (acc : SettleAcc)
    (bet : BetRecord) (rest : List BetRecord) :
    settleBets blocks acc (bet :: rest) =
      ((settleBets blocks (settleOneBet blocks acc bet).1 rest).1,
       (settleOneBet blocks acc bet).2.1
         :: (settleBets blocks (settleOneBet blocks acc bet).1 rest).2.1,
       (settleOneBet blocks acc bet).2.2
         ++ (settleBets blocks (settleOneBet blocks acc bet).1 rest).2.2) := by
  rfl

theorem settleBets_spec (blocks : List BlockData) :
    ∀ (bets : List BetRecord) (acc : SettleAcc),
    (settleBets blocks acc bets).1.currentBalance
        = replayBalance acc.currentBalance (settleBets blocks acc bets).2.2
    ∧ replayMatches acc.currentBalance (settleBets blocks acc bets).2.2 = true
    ∧ ((settleBets blocks acc bets).2.1.map betKey) = bets.map betKey
    ∧ (∀ b' ∈ (settleBets blocks acc bets).2.1, b'.status ≠ BetStatus.PENDING →
        Ev.settled b' ∈ (settleBets blocks acc bets).2.2 ∨ b' ∈ bets) := by
  intro bets
  induction bets with
  | nil => intro acc; exact ⟨rfl, rfl, rfl, by simp [settleBets_nil]⟩
  | cons bet rest ih =>
    intro acc
    obtain ⟨h1, h2, h3, h4⟩ := settleOneBet_spec blocks acc bet
    obtain ⟨g1, g2, g3, g4⟩ := ih (settleOneBet blocks acc bet).1
    rw [settleBets_cons]
    refine ⟨?_, ?_, ?_, ?_⟩
    · dsimp only
      rw [g1, replayBalance_append, h1]
    · dsimp only
      rw [replayMatches_append, h2, ← h1, g2]
      rfl
    · dsimp only [List.map_cons]
      rw [h3, g3]
    · dsimp only
      intro b' hb' hstat
      rcases List.mem_cons.mp hb' with rfl | hmem
      · rcases h4 hstat with hev | heq
        · exact Or.inl (List.mem_append_left _ hev)
        · exact Or.inr (by rw [heq]; exact List.mem_cons_self _ _)
      · rcases g4 b' hmem hstat with hev | hm
        · exact Or.inl (List.mem_append_right _ hev)
        · exact Or.inr (List.mem_cons_of_mem _ hm)

theorem settleOneBet_skip_not_pending (blocks : List BlockData) (acc : SettleAcc)
    {bet : BetRecord} (h : ¬ bet.status = BetStatus.PENDING) :
    settleOneBet blocks acc bet = (acc, bet, []) := by
  unfold settleOneBet; rw [if_neg h]

theorem settleOneBet_skip_no_block (blocks : List BlockData) (acc : SettleAcc)
    {bet : BetRecord} (h1 : bet.status = BetStatus.PENDING)
    (h2 : blocks.find? (fun b => decide (b.height = bet.targetHeight)) = none) :
    settleOneBet blocks acc bet = (acc, bet, []) := by
  unfold settleOneBet; rw [if_pos h1, h2]

theorem settleOneBet_result_not_pending (blocks : List BlockData) (acc : SettleAcc)
    {bet : BetRecord} (h1 : bet.status = BetStatus.PENDING) {blk : BlockData}
    (h2 : blocks.find? (fun b => decide (b.height = bet.targetHeight)) = some blk) :
    ¬ (settleOneBet blocks acc bet).2.1.status = BetStatus.PENDING := by
  unfold settleOneBet
  rw [if_pos h1, h2]
  dsimp only
  split <;> simp

theorem settleOneBet_inert (blocks : List BlockData) (acc acc₂ : SettleAcc)
    (bet : BetRecord) :
    settleOneBet blocks acc₂ (settleOneBet blocks acc bet).2.1
      = (acc₂, (settleOneBet blocks acc bet).2.1, []) := by
  by_cases h1 : bet.status = BetStatus.PENDING
  · cases h2 : blocks.find? (fun b => decide (b.height = bet.targetHeight)) with
    | none =>
      rw [settleOneBet_skip_no_block blocks acc h1 h2]
      exact settleOneBet_skip_no_block blocks acc₂ h1 h2
    | some blk =>
      exact settleOneBet_skip_not_pending blocks acc₂
        (settleOneBet_result_not_pending blocks acc h1 h2)
  · rw [settleOneBet_skip_not_pending blocks acc h1]
    exact settleOneBet_skip_not_pending blocks acc₂ h1

theorem settleBets_inert (blocks : List BlockData) :
    ∀ (bets : List BetRecord) (acc acc₂ : SettleAcc),
    settleBets blocks acc₂ (settleBets blocks acc bets).2.1
      = (acc₂, (settleBets blocks acc bets).2.1, []) := by
  intro bets
  induction bets with
  | nil => intro acc acc₂; rfl
  | cons bet rest ih =>
    intro acc acc₂
    rw [settleBets_cons]
    dsimp only
    rw [settleBets_cons, settleOneBet_inert blocks acc acc₂ bet]
    dsimp only
    rw [ih (settleOneBet blocks acc bet).1 acc₂]
    rfl

theorem hasBetFor_false_key {bets : List BetRecord} {rid : String} {h : ℤ}
    {tid : Option String} (hf : hasBetFor bets rid h tid = false) :
    ∀ b ∈ bets, betKey b ≠ (rid, h, tid) := by
  intro b hb hkey
  unfold hasBetFor at hf
  have hb' := List.any_eq_false.mp hf b hb
  simp only [betKey, Prod.mk.injEq] at hkey
  obtain ⟨e1, e2, e3⟩ := hkey
  simp [e1, e2, e3] at hb'

theorem placeNewBet_spec {tid : String} (acc : PlaceAcc) (nb : BetRecord)
    (hpend : nb.status = BetStatus.PENDING) (htid : nb.taskId = some tid)
    (hdup : hasBetFor acc.finalBets nb.ruleId nb.targetHeight nb.taskId = false) :
    PlaceSpec tid acc (placeNewBet nb acc) :=
  Or.inr ⟨nb, hpend, htid, hdup, rfl⟩

theorem processFullScanTask_spec (rules : List IntervalRule) (blocks : List BlockData)
    (cfg : SimConfig) (rand : ℚ) (acc : PlaceAcc) (task : AutoTask) :
    PlaceSpec task.id acc (processFullScanTask rules blocks cfg rand acc task) := by
  unfold processFullScanTask
  split
  · exact Or.inl rfl
  · dsimp only
    split
    · exact Or.inl rfl
    · split
      · split
        · exact Or.inl rfl
        · rename_i hdup
          simp only [Bool.not_eq_true] at hdup
          exact placeNewBet_spec acc _ rfl rfl hdup
      · exact Or.inl rfl

theorem processDragonTask_spec (rules : List IntervalRule) (blocks : List BlockData)
    (cfg : SimConfig) (acc : PlaceAcc) (task : AutoTask) :
    PlaceSpec task.id acc (processDragonTask rules blocks cfg acc task) := by
  unfold processDragonTask
  split
  · exact Or.inl rfl
  · dsimp only
    split
    · split
      · exact Or.inl rfl
      · split
        · exact Or.inl rfl
        · rename_i hdup
          simp only [Bool.not_eq_true] at hdup
          exact placeNewBet_spec acc _ rfl rfl hdup
    · exact Or.inl rfl

theorem processStandardTask_spec (rules : List IntervalRule) (blocks : List BlockData)
    (cfg : SimConfig) (rand : ℚ) (acc : PlaceAcc) (task : AutoTask) :
    PlaceSpec task.id acc (processStandardTask rules blocks cfg rand acc task) := by
  unfold processStandardTask
  split
  · exact Or.inl rfl
  · dsimp only
    split
    · exact Or.inl rfl
    · split
      · rename_i hdup hbet
        simp only [Bool.not_eq_true] at hdup
        exact placeNewBet_spec acc _ rfl rfl hdup
      · exact Or.inl rfl

theorem processTask_spec (rules : List IntervalRule) (blocks : List BlockData)
    (cfg : SimConfig) (rand : ℚ) (acc : PlaceAcc) (task : AutoTask) :
    PlaceSpec task.id acc
      ((processTask rules blocks cfg rand acc task).1,
       (processTask rules blocks cfg rand acc task).2.2) := by
  unfold processTask
  split
  · exact Or.inl rfl
  · split
    · exact Or.inl rfl
    · split
      · exact processFullScanTask_spec rules blocks cfg rand acc task
      · exact processDragonTask_spec rules blocks cfg acc task
      · exact processDragonTask_spec rules blocks cfg acc task
      · exact processStandardTask_spec rules blocks cfg rand acc task

theorem placeSpec_facts {tid : String} {acc : PlaceAcc} {res : PlaceAcc × List Ev}
    (h : PlaceSpec tid acc res) :
    res.1.currentBalance = replayBalance acc.currentBalance res.2
    ∧ (∀ bal : ℚ, replayMatches bal res.2 = true)
    ∧ (∀ b' ∈ res.1.finalBets, b' ∈ acc.finalBets ∨ b'.status = BetStatus.PENDING)
    ∧ (NoDupWagers acc.finalBets → NoDupWagers res.1.finalBets) := by
  rcases h with rfl | ⟨nb, hpend, htid, hdup, rfl⟩
  · exact ⟨rfl, fun _ => rfl, fun b hb => Or.inl hb, fun hd => hd⟩
  · refine ⟨rfl, fun bal => rfl, ?_, ?_⟩
    · intro b' hb'
      rcases List.mem_cons.mp hb' with rfl | hm
      · exact Or.inr hpend
      · exact Or.inl hm
    · intro hd
      unfold NoDupWagers at *
      refine List.pairwise_cons.mpr ⟨?_, hd⟩
      intro b hb hkey
      exact hasBetFor_false_key hdup b hb (by rw [← hkey]; rfl)

theorem processTasks_nil (rules : List IntervalRule) (blocks : List BlockData)
    (cfg : SimConfig) (rand : ℚ) (acc : PlaceAcc) :
    processTasks rules blocks cfg rand acc [] = (acc, [], []) := rfl

theorem processTasks_cons (rules : List IntervalRule) (blocks : List BlockData)
    (cfg : SimConfig) (rand : ℚ) (acc : PlaceAcc) (t : AutoTask) (ts : List AutoTask) :
    processTasks rules blocks cfg rand acc (t :: ts) =
      ((processTasks rules blocks cfg rand (processTask rules blocks cfg rand acc t).1 ts).1,
       (processTask rules blocks cfg rand acc t).2.1
         :: (processTasks rules blocks cfg rand (processTask rules blocks cfg rand acc t).1 ts).2.1,
       (processTask rules blocks cfg rand acc t).2.2
         ++ (processTasks rules blocks cfg rand (processTask rules blocks cfg rand acc t).1 ts).2.2) := by
  rfl

theorem processTasks_spec (rules : List IntervalRule) (blocks : List BlockData)
    (cfg : SimConfig) (rand : ℚ) :
    ∀ (tasks : List AutoTask) (acc : PlaceAcc),
    (processTasks rules blocks cfg rand acc tasks).1.currentBalance
        = replayBalance acc.currentBalance (processTasks rules blocks cfg rand acc tasks).2.2
    ∧ (∀ bal : ℚ, replayMatches bal (processTasks rules blocks cfg rand acc tasks).2.2 = true)
    ∧ (∀ b' ∈ (processTasks rules blocks cfg rand acc tasks).1.finalBets,
        b' ∈ acc.finalBets ∨ b'.status = BetStatus.PENDING)
    ∧ (NoDupWagers acc.finalBets →
        NoDupWagers (processTasks rules blocks cfg rand acc tasks).1.finalBets) := by
  intro tasks
  induction tasks with
  | nil => intro acc; exact ⟨rfl, fun _ => rfl, fun b hb => Or.inl hb, fun hd => hd⟩
  | cons t ts ih =>
    intro acc
    obtain ⟨h1, h2, h3, h4⟩ := placeSpec_facts (processTask_spec rules blocks cfg rand acc t)
    obtain ⟨g1, g2, g3, g4⟩ := ih (processTask rules blocks cfg rand acc t).1
    rw [processTasks_cons]
    refine ⟨?_, ?_, ?_, ?_⟩
    · dsimp only
      rw [g1, replayBalance_append, ← h1]
    · dsimp only
      intro bal
      rw [replayMatches_append, h2, g2]
      rfl
    · dsimp only
      intro b' hb'
      rcases g3 b' hb' with hm | hp
      · rcases h3 b' hm with hm' | hp'
        · exact Or.inl hm'
        · exact Or.inr hp'
      · exact Or.inr hp
    · dsimp only
      intro hd
      exact g4 (h4 hd)

theorem noDupWagers_iff (l : List BetRecord) :
    NoDupWagers l ↔ (l.map betKey).Pairwise (fun a b => a ≠ b) :=
  (List.pairwise_map).symm

theorem noDupWagers_of_keys_eq {l1 l2 : List BetRecord}
    (h : l1.map betKey = l2.map betKey) (hd : NoDupWagers l2) : NoDupWagers l1 :=
  (noDupWagers_iff l1).mpr (h ▸ (noDupWagers_iff l2).mp hd)

theorem placeBetDuplicate_manual_false_key {bets : List BetRecord} {th : ℤ}
    {rule : IntervalRule}
    (hf : placeBetDuplicate bets th rule BetSource.MANUAL none = false) :
    ∀ b ∈ bets, ¬(b.ruleId = rule.id ∧ b.targetHeight = th ∧ b.taskId = none) := by
  intro b hb hcon
  unfold placeBetDuplicate at hf
  have hb' := List.any_eq_false.mp hf b hb
  simp [hcon.1, hcon.2.1, hcon.2.2] at hb'

/-- The inductive engine invariant: in every state reachable in a session
reset with `cfg0`, the live balance is the replay of the ghost trace from
the session's starting initial balance `cfg0.initialBalance`, the replay
reproduces every recorded `balanceAfter`, every settled wager in the ledger
was settled by some traced settlement event, and the ledger holds at most
one wager per `(ruleId, targetHeight, source)` key.  (The replay base is
the session-start value, not the live `config.initialBalance`, because the
operator can edit the latter mid-session without touching the balance.) -/
theorem engine_inv {cfg0 : SimConfig} {st : EngineState} {tr : List Ev}
    (h : Reachable cfg0 st tr) :
    st.balance = replayBalance cfg0.initialBalance tr
    ∧ replayMatches cfg0.initialBalance tr = true
    ∧ (∀ b ∈ st.bets, b.status ≠ BetStatus.PENDING → Ev.settled b ∈ tr)
    ∧ NoDupWagers st.bets := by
  induction h with
  | init =>
    refine ⟨rfl, rfl, ?_, ?_⟩ <;> simp [initState, NoDupWagers]
  | manualPlace th ty tgt amt rule hst ih =>
    rename_i st0 tr0
    obtain ⟨ih1, ih2, ih3, ih4⟩ := ih
    unfold placeBet
    by_cases hdup : placeBetDuplicate st0.bets th rule BetSource.MANUAL none = true
    · rw [if_pos hdup]
      dsimp only
      simpa using ⟨ih1, ih2, ih3, ih4⟩
    · rw [if_neg hdup]
      dsimp only
      refine ⟨?_, ?_, ?_, ?_⟩
      · rw [replayBalance_append, ← ih1]
        rfl
      · rw [replayMatches_append, ih2, ← ih1]
        rfl
      · intro b hb hstat
        rcases List.mem_cons.mp hb with rfl | hm
        · exact absurd rfl hstat
        · exact List.mem_append_left _ (ih3 b hm hstat)
      · refine List.pairwise_cons.mpr ⟨?_, ih4⟩
        intro b hb hkey
        have hf := Bool.not_eq_true _ ▸ hdup
        refine placeBetDuplicate_manual_false_key (eq_false_of_ne_true hdup) b hb ?_
        simp only [betKey, Prod.mk.injEq] at hkey
        exact ⟨hkey.1.symm, hkey.2.1.symm, hkey.2.2.symm⟩
  | cycle rules blocks rand hst ih =>
    obtain ⟨ih1, ih2, ih3, ih4⟩ := ih
    cases blocks with
    | nil => simpa [runCycle] using ⟨ih1, ih2, ih3, ih4⟩
    | cons blk bs =>
      rename_i st0 tr0
      unfold runCycle
      rw [if_neg (by simp : ¬((blk :: bs).isEmpty = true))]
      dsimp only
      obtain ⟨s1, s2, s3, s4⟩ := settleBets_spec (blk :: bs) st0.bets
        ⟨st0.balance, st0.tasks, st0.globalMetrics.peakBalance, st0.globalMetrics.maxDrawdown⟩
      split
      · refine ⟨?_, ?_, ?_, ?_⟩
        · rw [replayBalance_append, ← ih1]
          exact s1
        · rw [replayMatches_append, ih2, ← ih1, s2]
          rfl
        · intro b hb hstat
          rcases s4 b hb hstat with hev | hm
          · exact List.mem_append_right _ hev
          · exact List.mem_append_left _ (ih3 b hm hstat)
        · exact noDupWagers_of_keys_eq s3 ih4
      · obtain ⟨p1, p2, p3, p4⟩ := processTasks_spec rules (blk :: bs) st0.config rand
          (settleBets (blk :: bs)
            ⟨st0.balance, st0.tasks, st0.globalMetrics.peakBalance, st0.globalMetrics.maxDrawdown⟩
            st0.bets).1.tasks
          ⟨(settleBets (blk :: bs)
              ⟨st0.balance, st0.tasks, st0.globalMetrics.peakBalance, st0.globalMetrics.maxDrawdown⟩
              st0.bets).1.currentBalance,
            (settleBets (blk :: bs)
              ⟨st0.balance, st0.tasks, st0.globalMetrics.peakBalance, st0.globalMetrics.maxDrawdown⟩
              st0.bets).2.1⟩
        refine ⟨?_, ?_, ?_, ?_⟩
        · rw [← List.append_assoc, replayBalance_append, replayBalance_append, ← ih1, ← s1]
          exact p1
        · rw [← List.append_assoc, replayMatches_append, replayMatches_append,
            ih2, ← ih1, s2, replayBalance_append, ← ih1, ← s1, p2]
          rfl
        · intro b hb hstat
          rcases p3 b hb with hm | hp
          · rcases s4 b hm hstat with hev | hmm
            · exact List.mem_append_right _ (List.mem_append_left _ hev)
            · exact List.mem_append_left _ (ih3 b hmm hstat)
          · exact absurd hp hstat
        · exact p4 (noDupWagers_of_keys_eq s3 ih4)
  | create id name rid dcfg hst ih => simpa [createTask] using ih
  | toggle tid hst ih => simpa [toggleTask] using ih
  | startAll hst ih => simpa [startAllTasks] using ih
  | stopAll hst ih => simpa [stopAllTasks] using ih
  | remove tid hst ih => simpa [deleteTask] using ih
  | adjust ib odds sl tp bb hst ih => simpa [adjustRiskConfig] using ih

theorem jsFloor_eq_floor (x : ℚ) : jsFloor x = (⌊x⌋ : ℚ) := by
  rw [Rat.floor_def]; rfl

theorem entropyDamper_lt_forty {r : ℚ} (h0 : 0 ≤ r) (h1 : r < 1) :
    entropyDamper r < 40 := by
  unfold entropyDamper jsRound
  rw [jsFloor_eq_floor]
  have hy : r * 20 + 10 + 1/2 < 40 := by linarith
  calc ((⌊r * 20 + 10 + 1/2⌋ : ℤ) : ℚ) ≤ r * 20 + 10 + 1/2 := Int.floor_le _
    _ < 40 := hy

theorem runAIAnalysis_rand_free {r r' : ℚ} (h0 : 0 ≤ r) (h1 : r < 1)
    (h0' : 0 ≤ r') (h1' : r' < 1) (blocks : List BlockData) (rule : IntervalRule) :
    runAIAnalysis r blocks rule = runAIAnalysis r' blocks rule := by
  have e1 : decide (entropyDamper r < 40) = true :=
    decide_eq_true (entropyDamper_lt_forty h0 h1)
  have e2 : decide (entropyDamper r' < 40) = true :=
    decide_eq_true (entropyDamper_lt_forty h0' h1')
  unfold runAIAnalysis
  dsimp only
  rw [e1, e2]

theorem getNextTargetHeight_gt (h step startBlock : ℤ) (hstep : 1 ≤ step) :
    h < getNextTargetHeight h step startBlock := by
  unfold getNextTargetHeight
  dsimp only
  by_cases hle : step ≤ 1
  · rw [if_pos hle]; omega
  · rw [if_neg hle]
    have hpos : (0:ℤ) < step := by omega
    have hkey : h - startBlock < ((h - startBlock).fdiv step + 1) * step := by
      rw [Int.fdiv_eq_ediv _ (le_of_lt hpos)]
      exact Int.lt_ediv_add_one_mul_self _ hpos
    split
    · rename_i hgt; exact hgt
    · rename_i hngt; omega

theorem getNextTargetHeight_eq_of_step_gt (h step startBlock : ℤ) (hstep : 1 < step) :
    getNextTargetHeight h step startBlock
      = startBlock + ((h - startBlock).fdiv step + 1) * step := by
  unfold getNextTargetHeight
  dsimp only
  rw [if_neg (by omega : ¬ step ≤ 1)]
  have hpos : (0:ℤ) < step := by omega
  have hkey : h - startBlock < ((h - startBlock).fdiv step + 1) * step := by
    rw [Int.fdiv_eq_ediv _ (le_of_lt hpos)]
    exact Int.lt_ediv_add_one_mul_self _ hpos
  rw [if_pos (by omega : startBlock + ((h - startBlock).fdiv step + 1) * step > h)]

theorem getNextTargetHeight_aligned (h : ℤ) (rule : IntervalRule)
    (hstep : 1 ≤ rule.value) (hoff : 0 ≤ rule.startBlock)
    (hh : rule.startBlock - rule.value ≤ h) :
    checkRuleAlignment (getNextTargetHeight h rule.value rule.startBlock) rule = true := by
  by_cases hle : rule.value ≤ 1
  · unfold checkRuleAlignment; rw [if_pos hle]
  · have hgt1 : 1 < rule.value := by omega
    have hpos : (0:ℤ) < rule.value := by omega
    rw [getNextTargetHeight_eq_of_step_gt h rule.value rule.startBlock hgt1]
    have hfd : -1 ≤ (h - rule.startBlock).fdiv rule.value := by
      rw [Int.fdiv_eq_ediv _ (le_of_lt hpos)]
      have h1 : -rule.value ≤ h - rule.startBlock := by omega
      have h2 := Int.ediv_le_ediv hpos h1
      rwa [Int.neg_ediv_of_dvd dvd_rfl,
        Int.ediv_self (by omega : rule.value ≠ 0)] at h2
    have hnn : 0 ≤ ((h - rule.startBlock).fdiv rule.value + 1) * rule.value :=
      mul_nonneg (by omega) (by omega)
    have htmod : (rule.startBlock + ((h - rule.startBlock).fdiv rule.value + 1) * rule.value
        - rule.startBlock).tmod rule.value = 0 := by
      have he : rule.startBlock + ((h - rule.startBlock).fdiv rule.value + 1) * rule.value
          - rule.startBlock = ((h - rule.startBlock).fdiv rule.value + 1) * rule.value := by
        ring
      rw [he]
      exact Int.mul_tmod_left _ _
    unfold checkRuleAlignment
    rw [if_neg hle]
    by_cases hsb : rule.startBlock > 0
    · rw [if_pos hsb]
      have hge : rule.startBlock
          ≤ rule.startBlock + ((h - rule.startBlock).fdiv rule.value + 1) * rule.value := by
        omega
      simp [hge, htmod]
    · rw [if_neg hsb]
      have hsb0 : rule.startBlock = 0 := by omega
      rw [hsb0] at htmod ⊢
      simpa using htmod

theorem checkRuleAlignment_twenty (rid : String) (rows : ℤ) (k : ℤ) :
    checkRuleAlignment k { id := rid, value := 20, startBlock := 0, beadRows := rows }
      = decide ((20:ℤ) ∣ k) := by
  unfold checkRuleAlignment
  rw [if_neg (by decide : ¬ ((20:ℤ) ≤ 1)), if_neg (by decide : ¬ ((0:ℤ) > 0))]
  exact decide_eq_decide.mpr ⟨Int.dvd_of_tmod_eq_zero, Int.tmod_eq_zero_of_dvd⟩

/-- C1 counterexample: the operator can edit `config.initialBalance`
mid-session (part_000:2815) without the live balance changing, so the claim
as stated — that replaying the ledger from (the current) `initialBalance`
reproduces the live balance at every point in time — is false: right after
the reset state of the default session (balance 10000, empty ledger) has
its configured initial balance edited to 5000, the state is reachable, the
trace is empty, yet the replay from `config.initialBalance` yields 5000
while the live balance is 10000. -/
theorem C1_counterexample_initial_balance_edit :
    Reachable wCfg wStateC1 []
    ∧ wStateC1.balance ≠ replayBalance wStateC1.config.initialBalance [] :=
  ⟨Reachable.adjust 5000 2 0 0 100 Reachable.init, by decide⟩

/-- C1 (amended): replaying all wagers in chronological settlement order
from the SESSION-START initial balance (the `initialBalance` in force at
the reset that opened the session) — debiting the stake at placement and
crediting the payout at settlement — reproduces the live balance in every
reachable state, and reproduces the `balanceAfter` (resulting bankroll)
recorded on every settled wager exactly: the replay is consistent with
every settlement event, and every settled wager in the ledger is covered by
one.  Replaying from the CURRENT `config.initialBalance` coincides with
this whenever the operator has not edited that field mid-session, and fails
otherwise (see the counterexample). -/
theorem C1_amended_replay_from_session_initial (cfg0 : SimConfig)
    (st : EngineState) (tr : List Ev) (h : Reachable cfg0 st tr) :
    st.balance = replayBalance cfg0.initialBalance tr
    ∧ replayMatches cfg0.initialBalance tr = true
    ∧ (∀ b ∈ st.bets, b.status ≠ BetStatus.PENDING → Ev.settled b ∈ tr) :=
  ⟨(engine_inv h).1, (engine_inv h).2.1, (engine_inv h).2.2.1⟩

theorem C1_amended_replay_from_session_initial_witness :
    wState1.balance = replayBalance wCfg.initialBalance wTrace1
    ∧ replayMatches wCfg.initialBalance wTrace1 = true
    ∧ (∀ b ∈ wState1.bets, b.status ≠ BetStatus.PENDING → Ev.settled b ∈ wTrace1) :=
  C1_amended_replay_from_session_initial wCfg wState1 wTrace1
    (Reachable.manualPlace 20 BetType.PARITY BetTarget.ODD 100 wRule Reachable.init)

/-- C2: in every reachable state the wager ledger contains at most one wager
per `(ruleId, targetHeight, source)` combination, where the source is the
owning task id for task wagers and "manual" (`none`) for manual wagers; both
the manual gateway and the orchestrator refuse a placement that would
duplicate an existing combination, which is what preserves the invariant. -/
theorem C2_no_duplicate_wager (cfg0 : SimConfig) (st : EngineState) (tr : List Ev)
    (h : Reachable cfg0 st tr) : NoDupWagers st.bets :=
  (engine_inv h).2.2.2

theorem C2_no_duplicate_wager_witness : NoDupWagers wState2.bets :=
  C2_no_duplicate_wager wCfg wState2 wTrace2
    (Reachable.manualPlace 20 BetType.PARITY BetTarget.ODD 100 wRule
      (Reachable.manualPlace 20 BetType.PARITY BetTarget.ODD 100 wRule
        Reachable.init))

/-- C3: settlement is idempotent — running the settlement pass a second time
with the same block data returns the accumulator (bankroll balance, tasks,
drawdown metrics) unchanged, every wager record (status, payout,
balanceAfter) unchanged, and credits nothing (no settlement events). -/
theorem C3_settlement_idempotent (blocks : List BlockData)
    (bets : List BetRecord) (acc : SettleAcc) :
    settleBets blocks (settleBets blocks acc bets).1 (settleBets blocks acc bets).2.1
      = ((settleBets blocks acc bets).1, (settleBets blocks acc bets).2.1, []) :=
  settleBets_inert blocks bets acc (settleBets blocks acc bets).1

/-- C4 counterexample: in the v4 engine the bankruptcy check compares the
bankroll against the task's BASE stake, not the stake the task is required
to place next.  With bankroll 200, base stake 100 and a MARTINGALE task two
losses deep (next required stake 400), the cycle leaves the task ACTIVE,
places the 400 wager anyway, and drives the bankroll to −200 — refuting
both "the stake never exceeds the current bankroll at placement" and
"the task is deactivated instead of placing the wager".  Moreover stakes
are not validated anywhere: a task carrying a negative base stake of −100
(the config inputs are raw `parseFloat` values) passes the bankruptcy check
and places a wager with NEGATIVE stake −100, crediting the bankroll —
refuting "a task's stake is never negative" as well. -/
theorem C4_counterexample_base_stake_bankruptcy :
    wStateC4.balance = 200
    ∧ (wStateC4.tasks.map fun t => t.state.currentBetAmount) = [400]
    ∧ (wStateC4.tasks.map fun t => t.isActive) = [true]
    ∧ ((runCycle [wRule] [wBlock] 0 wStateC4).1.tasks.map fun t => t.isActive) = [true]
    ∧ ((runCycle [wRule] [wBlock] 0 wStateC4).1.bets.map fun b => b.amount) = [400]
    ∧ (runCycle [wRule] [wBlock] 0 wStateC4).1.balance = -200
    ∧ (wStateC4neg.tasks.map fun t => t.baseBet) = [-100]
    ∧ ((runCycle [wRule] [wBlock] 0 wStateC4neg).1.bets.map fun b => b.amount) = [-100]
    ∧ (runCycle [wRule] [wBlock] 0 wStateC4neg).1.balance = 300 := by
  decide

/-- C4 (amended): the v4 orchestrator deactivates an ACTIVE task (instead of
placing) exactly when the bankroll is below the task's BASE stake
(`currentBalance < task.baseBet`).  Neither bound claimed originally is
enforced: a progression stake larger than the bankroll is still placed when
the bankroll is at or above the base stake (the balance can go negative),
and, with no configuration validation in the source, a negative base stake
yields a placed wager with negative stake (see the counterexample for
both). -/
theorem C4_amended_deactivate_below_base_stake (rules : List IntervalRule)
    (blocks : List BlockData) (cfg : SimConfig) (rand : ℚ) (acc : PlaceAcc)
    (task : AutoTask) (hact : task.isActive = true)
    (hbank : acc.currentBalance < task.baseBet) :
    processTask rules blocks cfg rand acc task
      = (acc, { task with isActive := false }, []) := by
  unfold processTask
  rw [hact]
  simp [hbank]

theorem C4_amended_deactivate_below_base_stake_witness :
    processTask [wRule] [wBlock] wCfg 0 ⟨50, []⟩ wTaskC4
      = (⟨50, []⟩, { wTaskC4 with isActive := false }, [])
    ∧ (50:ℚ) < wTaskC4.baseBet :=
  ⟨C4_amended_deactivate_below_base_stake [wRule] [wBlock] wCfg 0 ⟨50, []⟩ wTaskC4
      rfl (by decide), by decide⟩

/-- C5 counterexample: the v4 manual gateway `placeBet` has no bankroll
check — a manual stake of 100 against a bankroll of 50 (no duplicate) is
ACCEPTED (returns true) and debits the bankroll to −50, refuting "placing a
manual wager fails by returning false when the stake exceeds the available
bankroll". -/
theorem C5_counterexample_no_balance_check :
    wStateC5.balance = 50
    ∧ (placeBet 20 BetType.PARITY BetTarget.ODD 100 BetSource.MANUAL wRule none wStateC5).1
        = true
    ∧ (placeBet 20 BetType.PARITY BetTarget.ODD 100 BetSource.MANUAL wRule none
        wStateC5).2.1.balance = -50 := by
  decide

/-- C5 (amended): the v4 manual gateway fails (returns false, without
throwing) only on a duplicate `(ruleId, targetHeight)` manual wager, and on
that failure the bankroll and the ledger are left unchanged; a
non-duplicate placement always succeeds and debits the stake even beyond
the available bankroll.  The earlier v2 gateway
(`SimulatedBetting.tsx` `placeBet`) did additionally return false, with
balance and ledger unchanged, when the supplied balance was below the
stake. -/
theorem C5_amended_manual_fails_only_on_duplicate
    (targetHeight : ℤ) (ty : BetType) (target : BetTarget) (amount : ℚ)
    (rule : IntervalRule) (st : EngineState)
    (currentBal odds balance : ℚ) (bets : List BetRecord) :
    (placeBetDuplicate st.bets targetHeight rule BetSource.MANUAL none = true →
      placeBet targetHeight ty target amount BetSource.MANUAL rule none st
        = (false, st, []))
    ∧ (placeBetDuplicate st.bets targetHeight rule BetSource.MANUAL none = false →
      (placeBet targetHeight ty target amount BetSource.MANUAL rule none st).1 = true
      ∧ (placeBet targetHeight ty target amount BetSource.MANUAL rule none st).2.1.balance
          = st.balance - amount)
    ∧ (currentBal < amount →
      placeBetV2 targetHeight ty target amount currentBal rule odds balance bets
        = (false, balance, bets)) := by
  refine ⟨fun hd => ?_, fun hd => ?_, fun hlt => ?_⟩
  · unfold placeBet; rw [if_pos hd]
  · unfold placeBet; rw [if_neg (by simp [hd])]; exact ⟨rfl, rfl⟩
  · unfold placeBetV2; rw [if_pos hlt]

theorem C5_amended_manual_fails_only_on_duplicate_witness :
    (placeBet 20 BetType.PARITY BetTarget.ODD 100 BetSource.MANUAL wRule none wState1
      = (false, wState1, []))
    ∧ ((placeBet 20 BetType.PARITY BetTarget.ODD 100 BetSource.MANUAL wRule none
          wStateC5).1 = true
        ∧ (placeBet 20 BetType.PARITY BetTarget.ODD 100 BetSource.MANUAL wRule none
            wStateC5).2.1.balance = wStateC5.balance - 100)
    ∧ placeBetV2 20 BetType.PARITY BetTarget.ODD 100 50 wRule (198/100) 50 []
        = (false, 50, []) :=
  ⟨(C5_amended_manual_fails_only_on_duplicate 20 BetType.PARITY BetTarget.ODD 100 wRule
      wState1 50 (198/100) 50 []).1 (by decide),
   (C5_amended_manual_fails_only_on_duplicate 20 BetType.PARITY BetTarget.ODD 100 wRule
      wStateC5 50 (198/100) 50 []).2.1 (by decide),
   (C5_amended_manual_fails_only_on_duplicate 20 BetType.PARITY BetTarget.ODD 100 wRule
      wStateC5 50 (198/100) 50 []).2.2 (by decide)⟩

/-- C6: whenever the global stop condition is tripped by the
post-settlement profit (profit ≥ takeProfit with takeProfit > 0, or
profit ≤ −stopLoss with stopLoss > 0), the cycle deactivates every task and
places no new wager: the resulting ledger is exactly the settled ledger,
the balance is exactly the post-settlement balance, and the cycle emits no
placement events. -/
theorem C6_global_stop_halts_engine (rules : List IntervalRule) (blk : BlockData)
    (bs : List BlockData) (rand : ℚ) (st : EngineState)
    (hstop :
      (st.config.takeProfit > 0
        ∧ (settlementPhase (blk :: bs) st).1.currentBalance - st.config.initialBalance
            ≥ st.config.takeProfit)
      ∨ (st.config.stopLoss > 0
        ∧ (settlementPhase (blk :: bs) st).1.currentBalance - st.config.initialBalance
            ≤ -st.config.stopLoss)) :
    (∀ t ∈ (runCycle rules (blk :: bs) rand st).1.tasks, t.isActive = false)
    ∧ (runCycle rules (blk :: bs) rand st).1.bets = (settlementPhase (blk :: bs) st).2.1
    ∧ (runCycle rules (blk :: bs) rand st).1.balance
        = (settlementPhase (blk :: bs) st).1.currentBalance
    ∧ (runCycle rules (blk :: bs) rand st).2 = (settlementPhase (blk :: bs) st).2.2 := by
  unfold settlementPhase at hstop ⊢
  unfold runCycle
  rw [if_neg (by simp : ¬ ((blk :: bs).isEmpty = true))]
  dsimp only
  rw [if_pos (show ((decide (st.config.takeProfit > 0)
      && decide ((settleBets (blk :: bs)
          ⟨st.balance, st.tasks, st.globalMetrics.peakBalance, st.globalMetrics.maxDrawdown⟩
          st.bets).1.currentBalance - st.config.initialBalance ≥ st.config.takeProfit))
      || (decide (st.config.stopLoss > 0)
      && decide ((settleBets (blk :: bs)
          ⟨st.balance, st.tasks, st.globalMetrics.peakBalance, st.globalMetrics.maxDrawdown⟩
          st.bets).1.currentBalance - st.config.initialBalance ≤ -st.config.stopLoss)))
      = true by
    rcases hstop with ⟨h1, h2⟩ | ⟨h1, h2⟩ <;> simp [h1, h2])]
  refine ⟨?_, rfl, rfl, rfl⟩
  intro t ht
  simp only [List.mem_map] at ht
  obtain ⟨t0, _, rfl⟩ := ht
  rfl

theorem C6_global_stop_halts_engine_witness :
    ((runCycle [wRule] (wBlock :: []) 0 wStateC6).1.tasks.map fun t => t.isActive) = [false]
    ∧ (runCycle [wRule] (wBlock :: []) 0 wStateC6).1.bets
        = (settlementPhase (wBlock :: []) wStateC6).2.1
    ∧ (runCycle [wRule] (wBlock :: []) 0 wStateC6).1.balance
        = (settlementPhase (wBlock :: []) wStateC6).1.currentBalance
    ∧ (runCycle [wRule] (wBlock :: []) 0 wStateC6).2
        = (settlementPhase (wBlock :: []) wStateC6).2.2 := by
  have h := C6_global_stop_halts_engine [wRule] wBlock [] 0 wStateC6 (by decide)
  exact ⟨by decide, h.2.1, h.2.2.1, h.2.2.2⟩

/-- C7: under MARTINGALE with maxCycle 3, multiplier 2 and base 100,
starting from the initial state `⟨0 losses, stake 100, index 0⟩`, the stakes
placed across three consecutive losses are 100, 200 and 400 (the transition
after each loss doubles the stake and bumps the loss streak), and after the
third loss the state resets to stake 100 with loss streak 0 for the fourth
wager; on a win from any state the stake resets to the base 100 and the
loss streak to 0. -/
theorem C7_martingale_progression :
    advanceTaskState martingaleCfg 100 ⟨0, 100, 0⟩ false = ⟨1, 200, 0⟩
    ∧ advanceTaskState martingaleCfg 100 ⟨1, 200, 0⟩ false = ⟨2, 400, 0⟩
    ∧ advanceTaskState martingaleCfg 100 ⟨2, 400, 0⟩ false = ⟨0, 100, 0⟩
    ∧ (∀ s : StrategyState,
        (advanceTaskState martingaleCfg 100 s true).currentBetAmount = 100
        ∧ (advanceTaskState martingaleCfg 100 s true).consecutiveLosses = 0) := by
  refine ⟨by decide, by decide, by decide, ?_⟩
  intro s
  have h : advanceTaskState martingaleCfg 100 s true
      = { s with currentBetAmount := jsFloor 100, consecutiveLosses := 0 } := rfl
  rw [h]
  exact ⟨(by decide : jsFloor (100:ℚ) = 100), rfl⟩

/-- C8: the AI-Kelly stake is `floor(bankroll · f · riskFraction)` with
`f = (b·p − q)/b`, floored at the base stake and capped at the bankroll;
whenever the computed `f ≤ 0` the stake equals the base stake, and (with a
positive base stake not exceeding the bankroll, which the engine's
bankruptcy guard ensures at placement) the stake is never negative and
never zero. -/
theorem C8_kelly_stake_clamped (odds baseBet balance confidence : ℚ)
    (kf : Option ℚ) (hb : 0 < baseBet) (hbal : baseBet ≤ balance) :
    (kellyF odds confidence ≤ 0 →
      kellyAmount odds baseBet balance confidence kf = baseBet)
    ∧ baseBet ≤ kellyAmount odds baseBet balance confidence kf
    ∧ kellyAmount odds baseBet balance confidence kf ≤ balance
    ∧ 0 < kellyAmount odds baseBet balance confidence kf := by
  unfold kellyAmount
  dsimp only
  refine ⟨fun hf => ?_, ?_, ?_, ?_⟩
  · rw [if_neg (not_lt.mpr hf), max_self, min_eq_left hbal]
  · exact le_min (le_max_left _ _) hbal
  · exact min_le_right _ _
  · exact lt_of_lt_of_le hb (le_min (le_max_left _ _) hbal)

theorem C8_kelly_stake_clamped_witness :
    (kellyF (198/100) 60 ≤ 0 → kellyAmount (198/100) 100 1000 60 (some (2/10)) = 100)
    ∧ (100:ℚ) ≤ kellyAmount (198/100) 100 1000 60 (some (2/10))
    ∧ kellyAmount (198/100) 100 1000 60 (some (2/10)) ≤ 1000
    ∧ 0 < kellyAmount (198/100) 100 1000 60 (some (2/10)) :=
  C8_kelly_stake_clamped (198/100) 100 1000 60 (some (2/10)) (by decide) (by decide)

/-- C9 counterexample: for the rule with step 20 anchored at start block
100, `nextAligned(0)` computes 20, which is strictly greater than 0 but NOT
aligned (alignment additionally requires the height to be at or past the
start block) — refuting "for every rule with step ≥ 1 and every height h,
nextAligned(h, rule) returns an aligned height strictly greater than h". -/
theorem C9_counterexample_unaligned_next_target :
    getNextTargetHeight 0 wRule20off100.value wRule20off100.startBlock = 20
    ∧ checkRuleAlignment 20 wRule20off100 = false
    ∧ ((0:ℤ) < 20) := by
  decide

/-- C9 (amended): for a rule `{step=20, offset=0}` exactly the heights
divisible by 20 are aligned and `nextAligned(25) = 40`; for every rule with
step ≥ 1 and offset ≥ 0, `nextAligned` (a pure, hence deterministic,
function) returns a height strictly greater than `h`, and that height is
aligned whenever `h ≥ offset − step` (in particular whenever the offset is
0); for `h < offset − step` the returned height lies below the offset and
is not aligned (see the counterexample). -/
theorem C9_amended_next_target_spec (h k : ℤ) (rule : IntervalRule)
    (hstep : 1 ≤ rule.value) (hoff : 0 ≤ rule.startBlock) :
    h < getNextTargetHeight h rule.value rule.startBlock
    ∧ (rule.startBlock - rule.value ≤ h →
        checkRuleAlignment (getNextTargetHeight h rule.value rule.startBlock) rule = true)
    ∧ checkRuleAlignment k
        { id := rule.id, value := 20, startBlock := 0, beadRows := rule.beadRows }
        = decide ((20:ℤ) ∣ k)
    ∧ getNextTargetHeight 25 20 0 = 40 :=
  ⟨getNextTargetHeight_gt h rule.value rule.startBlock hstep,
   fun hh => getNextTargetHeight_aligned h rule hstep hoff hh,
   checkRuleAlignment_twenty rule.id rule.beadRows k,
   by decide⟩

theorem C9_amended_next_target_spec_witness :
    (25:ℤ) < getNextTargetHeight 25 wRule20.value wRule20.startBlock
    ∧ (wRule20.startBlock - wRule20.value ≤ 25 →
        checkRuleAlignment (getNextTargetHeight 25 wRule20.value wRule20.startBlock)
          wRule20 = true)
    ∧ checkRuleAlignment 40
        { id := wRule20.id, value := 20, startBlock := 0, beadRows := wRule20.beadRows }
        = decide ((20:ℤ) ∣ (40:ℤ))
    ∧ getNextTargetHeight 25 20 0 = 40 :=
  C9_amended_next_target_spec 25 40 wRule20 (by decide) (by decide)

/-- C10 counterexample: the "entropy" damper is
`Math.round(Math.random()*20+10)`, which always lies in [10, 30] and is
compared against 40, so it never suppresses a qualifying signal: there is
NO block window, rule and pair of randomness draws (in [0,1)) for which
`shouldPredict` differs — refuting "different draws of the randomness
source yield different shouldPredict results". -/
theorem C10_counterexample_entropy_never_suppresses :
    ¬ ∃ (blocks : List BlockData) (rule : IntervalRule) (r₁ r₂ : ℚ),
      (0 ≤ r₁ ∧ r₁ < 1) ∧ (0 ≤ r₂ ∧ r₂ < 1) ∧
      (runAIAnalysis r₁ blocks rule).shouldPredict
        ≠ (runAIAnalysis r₂ blocks rule).shouldPredict := by
  rintro ⟨blocks, rule, r₁, r₂, ⟨h01, h11⟩, ⟨h02, h12⟩, hne⟩
  exact hne (by rw [runAIAnalysis_rand_free h01 h11 h02 h12])

/-- C10 (amended): the heuristic predictor's entropy damper
`round(rand·20 + 10)` always lies below its threshold 40, so the damper
never suppresses a signal: `runAIAnalysis` is a deterministic function of
the block window and rule — any two randomness draws in [0, 1) yield the
identical result (callers CAN rely on repeatable output for identical
input). -/
theorem C10_amended_predictor_deterministic (blocks : List BlockData)
    (rule : IntervalRule) (r₁ r₂ : ℚ) (h01 : 0 ≤ r₁) (h11 : r₁ < 1)
    (h02 : 0 ≤ r₂) (h12 : r₂ < 1) :
    runAIAnalysis r₁ blocks rule = runAIAnalysis r₂ blocks rule :=
  runAIAnalysis_rand_free h01 h11 h02 h12 blocks rule

theorem C10_amended_predictor_deterministic_witness :
    runAIAnalysis 0 [wBlock] wRule = runAIAnalysis (1/2) [wBlock] wRule :=
  C10_amended_predictor_deterministic [wBlock] wRule 0 (1/2)
    (by decide) (by decide) (by decide) (by decide)

end TronSim
